import Mathlib

/-!
# GLSpriteRender: particle physics step and vertex batching

A shallow embedding of `src/main.cpp`: the structure-of-arrays particle store,
the 8-wide physics step `updateParticles`, the quad batcher `setColor` /
`drawRect`, the two flush backends and the frame loop of `main`.

Modelling conventions.

* A `float` is an IEEE 754 binary32 value, `F32`: a NaN, an infinity, or a
  finite value given by its sign and its magnitude in units of `2 ^ (-149)`.
  `+` and `*` on `F32` are the binary32 operations, rounded to nearest with
  ties to even, with gradual underflow and overflow to infinity; the
  comparisons are the ordered ones, false on a NaN.  NaN payloads are not
  modelled.
* A `float` array (a column of `Particles`, a vertex buffer) is a map from
  cell index to value; a `float*` is the index of the cell it points to, so
  `p[i]` is cell `p + i` and advancing a pointer by `sizeof(float) * 12`
  bytes advances it by 12 cells.
* A `__m256` is its 8 lanes, a `__m128` its 4 lanes, lane 0 at the lowest
  address; a comparison mask is one `Bool` per lane.
* `size_t` is 64 bits wide and `GLsizei` is a 32-bit two's complement `int`.
* OpenGL is modelled by the trace of the buffer and draw calls issued.
-/

namespace GLSpriteRender

/-! ## Binary32 arithmetic -/

/-- A binary32 value.  A finite value is a sign and a magnitude counted in
units of `2 ^ (-149)`, the spacing of the subnormals, of which every finite
binary32 number is an integer multiple; `fin true 0` is the negative zero. -/
inductive F32 where
  | nan
  | inf (neg : Bool)
  | fin (neg : Bool) (m : Nat)
  deriving DecidableEq

namespace F32

/-- The search for the rounding shift: the least `t` from the given one on
with `n / (d * 2 ^ t) < 2 ^ 24`, tried `fuel` times. -/
def shiftFrom : Nat → Nat → Nat → Nat → Nat
  | 0, _, _, t => t
  | fuel + 1, n, d, t => if n / (d * 2 ^ t) < 2 ^ 24 then t else shiftFrom fuel n d (t + 1)

/-- The number of low bits of `n / d` that do not fit in a 24-bit significand. -/
def shift (n d : Nat) : Nat := shiftFrom n n d 0

/-- Round to nearest, ties to even, of the magnitude `n / d` (in units of
`2 ^ (-149)`) to 24 significant bits, the exponent not yet bounded above. -/
def roundMag (n d : Nat) : Nat :=
  let t := shift n d
  let q := n / (d * 2 ^ t)
  let r := n % (d * 2 ^ t)
  (if 2 * r < d * 2 ^ t then q else if 2 * r > d * 2 ^ t then q + 1 else q + q % 2) * 2 ^ t

/-- The first magnitude that is no longer finite: `2 ^ 128`. -/
def overflowMag : Nat := 2 ^ 128 * 2 ^ 149

/-- The binary32 value nearest to `n / d` units with the given sign; a
rounded magnitude of `2 ^ 128` or more is an infinity. -/
def round (neg : Bool) (n d : Nat) : F32 :=
  if roundMag n d < overflowMag then fin neg (roundMag n d) else inf neg

/-- Conversion of an unsigned integer to `float`. -/
def ofNat (n : Nat) : F32 := round false (n * 2 ^ 149) 1

/-- The `float` literal with the decimal value `num / den`, negated when `neg`. -/
def ofDec (neg : Bool) (num den : Nat) : F32 := round neg (num * 2 ^ 149) den

/-- The signed magnitude of a finite value. -/
def toInt (neg : Bool) (m : Nat) : Int := if neg then -(m : Int) else (m : Int)

/-- Addition of two `float`s. -/
def add : F32 → F32 → F32
  | nan, _ => nan
  | _, nan => nan
  | inf s, inf s' => if s = s' then inf s else nan
  | inf s, fin _ _ => inf s
  | fin _ _, inf s => inf s
  | fin s m, fin s' m' =>
    if toInt s m + toInt s' m' = 0 then fin (s && s') 0
    else round (decide (toInt s m + toInt s' m' < 0)) (toInt s m + toInt s' m').natAbs 1

/-- Multiplication of two `float`s. -/
def mul : F32 → F32 → F32
  | nan, _ => nan
  | _, nan => nan
  | inf s, inf s' => inf (xor s s')
  | inf s, fin s' m' => if m' = 0 then nan else inf (xor s s')
  | fin s m, inf s' => if m = 0 then nan else inf (xor s s')
  | fin s m, fin s' m' => round (xor s s') (m * m') (2 ^ 149)

/-- The comparison `a < b`: false when an operand is a NaN. -/
def lt : F32 → F32 → Bool
  | nan, _ => false
  | _, nan => false
  | inf s, inf s' => s && !s'
  | inf s, fin _ _ => s
  | fin _ _, inf s' => !s'
  | fin s m, fin s' m' => decide (toInt s m < toInt s' m')

/-- The comparison `a > b`. -/
def gt (a b : F32) : Bool := lt b a

/-- The comparison `a <= b`: false when an operand is a NaN. -/
def le : F32 → F32 → Bool
  | nan, _ => false
  | _, nan => false
  | inf s, inf s' => s || !s'
  | inf s, fin _ _ => s
  | fin _ _, inf s' => !s'
  | fin s m, fin s' m' => decide (toInt s m ≤ toInt s' m')

/-- The sign of a value as a number: 0 for both zeros and for a NaN. -/
def sign : F32 → Int
  | nan => 0
  | inf s => if s then -1 else 1
  | fin s m => if m = 0 then 0 else if s then -1 else 1

/-- The test for a finite binary32 number: the magnitude is below `2 ^ 128`
and its significand fits in 24 bits. -/
def isFinite : F32 → Bool
  | fin _ m => decide (m < overflowMag) && decide (m % 2 ^ shift m 1 = 0)
  | _ => false

/-- The test for a zero of either sign. -/
def isZero : F32 → Bool
  | fin _ m => decide (m = 0)
  | _ => false

instance : Add F32 := ⟨add⟩

instance : Mul F32 := ⟨mul⟩

instance (n : Nat) : OfNat F32 n := ⟨ofNat n⟩

end F32

/-! ## Compile-time configuration and constants -/

/-- The macro `USE_DYNAMIC_STREAMING` is defined in the source. -/
def USE_DYNAMIC_STREAMING : Bool := true

/-- The macro `USE_SIMD` is defined in the source. -/
def USE_SIMD : Bool := true

/-- Capacity of the particle store and of the batch, in sprites. -/
def SPRITE_COUNT : Nat := 1000000

/-- Number of `__m256` vectors in a column. -/
def SPRITE_256VECTOR_COUNT : Nat := SPRITE_COUNT / 8

def appWidth : Nat := 1080

def appHeight : Nat := 720

def vertPerQuad : Nat := 6

/-- The value of `sizeof(float)`. -/
def sizeofFloat : Nat := 4

/-- Width of `size_t`: arithmetic on it is modulo `2 ^ 64`. -/
def SIZE_MAX1 : Nat := 2 ^ 64

/-- The static `gravity = 1.5f`. -/
def gravity : F32 := F32.ofDec false 3 2

/-- The literal `-1.0005f` of `vBounceMask`. -/
def bounceFactor : F32 := F32.ofDec true 10005 10000

/-! ## Vector kernels -/

/-- An AVX register of 8 floats. -/
abbrev M256 := Fin 8 → F32

/-- An SSE register of 4 floats. -/
abbrev M128 := Fin 4 → F32

/-- The result of `_mm256_cmp_ps`: per lane, all bits set or all clear. -/
abbrev Mask256 := Fin 8 → Bool

def _mm256_set1_ps (a : F32) : M256 := fun _ => a

def _mm256_add_ps (a b : M256) : M256 := fun l => a l + b l

def _mm256_mul_ps (a b : M256) : M256 := fun l => a l * b l

/-- Lane-wise `a < b ? a : b`. -/
def _mm256_min_ps (a b : M256) : M256 := fun l => if F32.lt (a l) (b l) then a l else b l

/-- Lane-wise `a > b ? a : b`. -/
def _mm256_max_ps (a b : M256) : M256 := fun l => if F32.gt (a l) (b l) then a l else b l

/-- The comparison `_mm256_cmp_ps(a, b, _CMP_GT_OQ)`. -/
def _mm256_cmp_ps_GT_OQ (a b : M256) : Mask256 := fun l => F32.gt (a l) (b l)

/-- The comparison `_mm256_cmp_ps(a, b, _CMP_LT_OQ)`. -/
def _mm256_cmp_ps_LT_OQ (a b : M256) : Mask256 := fun l => F32.lt (a l) (b l)

/-- Lane-wise select: the lane of `b` where the mask is set, else the lane of `a`. -/
def _mm256_blendv_ps (a b : M256) (mask : Mask256) : M256 :=
  fun l => if mask l then b l else a l

/-- The first argument goes to lane 0, the lowest address. -/
def _mm_setr_ps (e0 e1 e2 e3 : F32) : M128 := ![e0, e1, e2, e3]

/-- The first argument goes to lane 0, the lowest address. -/
def _mm256_setr_ps (e0 e1 e2 e3 e4 e5 e6 e7 : F32) : M256 :=
  ![e0, e1, e2, e3, e4, e5, e6, e7]

def vGravity : M256 := _mm256_set1_ps gravity

def vYLimits : M256 := _mm256_set1_ps (F32.ofNat appHeight)

def vXLimitLeft : M256 := _mm256_set1_ps 0

def vXLimitRight : M256 := _mm256_set1_ps (F32.ofNat appWidth)

def vBounceMask : M256 := _mm256_set1_ps bounceFactor

def vOne : M256 := _mm256_set1_ps 1

/-! ## Particle store -/

/-- The struct `Particles`: seven float columns and the active count.  The
unions make vector `k` of a column alias its cells `8 * k .. 8 * k + 7`. -/
structure Particles where
  positionX : Nat → F32
  positionY : Nat → F32
  velocityX : Nat → F32
  velocityY : Nat → F32
  colorR : Nat → F32
  colorG : Nat → F32
  colorB : Nat → F32
  count : Nat

/-- Read of the union member `vColumn[index]`. -/
def vload (col : Nat → F32) (index : Nat) : M256 := fun l => col (8 * index + l.val)

/-- Write of the union member `vColumn[index] = v`. -/
def vstore (col : Nat → F32) (index : Nat) (v : M256) : Nat → F32 :=
  fun i => if i / 8 = index then v ⟨i % 8, Nat.mod_lt i (by decide)⟩ else col i

/-- The function `constructParticles`.  The draws `velX(generator) * sin(index)`,
`velY(generator) * sin(index)` and `col(generator)` are taken as the
parameters `vx`, `vy`, `cr`, `cg`, `cb`; `mem` is the storage before the call. -/
def constructParticles (mem : Particles) (vx vy cr cg cb : Nat → F32) : Particles :=
  { positionX := fun index => if index < SPRITE_COUNT then 0 else mem.positionX index
    positionY := fun index => if index < SPRITE_COUNT then 100 else mem.positionY index
    velocityX := fun index => if index < SPRITE_COUNT then vx index else mem.velocityX index
    velocityY := fun index => if index < SPRITE_COUNT then vy index else mem.velocityY index
    colorR := fun index => if index < SPRITE_COUNT then cr index else mem.colorR index
    colorG := fun index => if index < SPRITE_COUNT then cg index else mem.colorG index
    colorB := fun index => if index < SPRITE_COUNT then cb index else mem.colorB index
    count := 0 }

/-! ## Physics step -/

/-- One iteration of the `USE_SIMD` loop of `updateParticles`, statement by
statement. -/
def updateParticlesSimdBody (p : Particles) (index : Nat) : Particles :=
  let p := { p with
    velocityY := vstore p.velocityY index
      (_mm256_add_ps (vload p.velocityY index) vGravity) }
  let p := { p with
    positionY := vstore p.positionY index
      (_mm256_add_ps (vload p.positionY index) (vload p.velocityY index)) }
  let p := { p with
    positionX := vstore p.positionX index
      (_mm256_add_ps (vload p.positionX index) (vload p.velocityX index)) }
  let vBounceY := _mm256_mul_ps (_mm256_blendv_ps vBounceMask vOne
    (_mm256_cmp_ps_GT_OQ (vload p.positionY index) vYLimits)) vBounceMask
  let vBounceXL := _mm256_mul_ps (_mm256_blendv_ps vBounceMask vOne
    (_mm256_cmp_ps_GT_OQ (vload p.positionX index) vXLimitRight)) vBounceMask
  let vBounceXR := _mm256_mul_ps (_mm256_blendv_ps vBounceMask vOne
    (_mm256_cmp_ps_LT_OQ (vload p.positionX index) vXLimitLeft)) vBounceMask
  let p := { p with
    velocityY := vstore p.velocityY index (_mm256_mul_ps (vload p.velocityY index) vBounceY) }
  let p := { p with
    velocityX := vstore p.velocityX index (_mm256_mul_ps (vload p.velocityX index) vBounceXL) }
  let p := { p with
    velocityX := vstore p.velocityX index (_mm256_mul_ps (vload p.velocityX index) vBounceXR) }
  let p := { p with
    positionY := vstore p.positionY index (_mm256_min_ps (vload p.positionY index) vYLimits) }
  let p := { p with
    positionX := vstore p.positionX index
      (_mm256_min_ps (vload p.positionX index) vXLimitRight) }
  { p with
    positionX := vstore p.positionX index
      (_mm256_max_ps (vload p.positionX index) vXLimitLeft) }

/-- The store after the first `n` iterations (`index = 0 .. n - 1`) of the
`USE_SIMD` loop. -/
def updateParticlesSimdLoop (p : Particles) : Nat → Particles
  | 0 => p
  | n + 1 => updateParticlesSimdBody (updateParticlesSimdLoop p n) n

/-- The `USE_SIMD` branch of `updateParticles`: `count / 8` iterations (the
body never writes `count`, so the bound is the same at every test). -/
def updateParticlesSimd (p : Particles) : Particles :=
  updateParticlesSimdLoop p (p.count / 8)

/-- One iteration of the scalar loop of `updateParticles`. -/
def updateParticlesScalarBody (p : Particles) (index : Nat) : Particles :=
  let p := { p with
    velocityY := Function.update p.velocityY index (p.velocityY index + gravity) }
  let p := { p with
    positionY := Function.update p.positionY index (p.positionY index + p.velocityY index) }
  let p := { p with
    positionX := Function.update p.positionX index (p.positionX index + p.velocityX index) }
  let p := if F32.gt (p.positionY index) (F32.ofNat (appHeight - 100)) then
      { p with
        positionY := Function.update p.positionY index (F32.ofNat (appHeight - 100))
        velocityY := Function.update p.velocityY index
          (p.velocityY index * F32.ofDec true 101 100) }
    else p
  if F32.gt (p.positionX index) (F32.ofNat (appWidth - 100)) then
    { p with
      positionX := Function.update p.positionX index (F32.ofNat (appWidth - 100))
      velocityX := Function.update p.velocityX index (p.velocityX index * F32.ofDec true 1 1) }
  else if F32.lt (p.positionX index) 100 then
    { p with
      positionX := Function.update p.positionX index 100
      velocityX := Function.update p.velocityX index (p.velocityX index * F32.ofDec true 1 1) }
  else p

/-- The store after the first `n` iterations of the scalar loop. -/
def updateParticlesScalarLoop (p : Particles) : Nat → Particles
  | 0 => p
  | n + 1 => updateParticlesScalarBody (updateParticlesScalarLoop p n) n

/-- The scalar branch of `updateParticles`. -/
def updateParticlesScalar (p : Particles) : Particles :=
  updateParticlesScalarLoop p p.count

/-- The function `updateParticles` as compiled. -/
def updateParticles (p : Particles) : Particles :=
  if USE_SIMD then updateParticlesSimd p else updateParticlesScalar p

/-! ## Batch renderer -/

/-- The enum value `GL_ARRAY_BUFFER`. -/
def GL_ARRAY_BUFFER : Nat := 0x8892

/-- The enum value `GL_TRIANGLES`. -/
def GL_TRIANGLES : Nat := 0x0004

/-- An OpenGL call of the flush functions, with its arguments. -/
inductive GLCall where
  | glBindBuffer (target : Nat) (buffer : Nat)
  | glBufferSubData (target : Nat) (offset : Int) (size : Int) (data : Nat)
  | glDrawArrays (mode : Nat) (first : Int) (count : Int)
  deriving DecidableEq

/-- Product of two `size_t` values. -/
def sizeMul (a b : Nat) : Nat := (a * b) % SIZE_MAX1

/-- Conversion of a `size_t` to the 64-bit signed `GLsizeiptr`. -/
def toGLsizeiptr (n : Nat) : Int :=
  if n % 2 ^ 64 < 2 ^ 63 then ((n % 2 ^ 64 : Nat) : Int) else ((n % 2 ^ 64 : Nat) : Int) - 2 ^ 64

/-- The cast `(GLsizei)` of a `size_t` to the 32-bit signed `int`. -/
def toGLsizei (n : Nat) : Int :=
  if n % 2 ^ 32 < 2 ^ 31 then ((n % 2 ^ 32 : Nat) : Int) else ((n % 2 ^ 32 : Nat) : Int) - 2 ^ 32

/-- The global `vpSize`, in bytes. -/
def vpSize : Nat := SPRITE_COUNT * (sizeofFloat * 12)

/-- The global `vcSize`, in bytes. -/
def vcSize : Nat := SPRITE_COUNT * (sizeofFloat * 24)

/-- The globals of the drawing API.  `posCells` and `colCells` are the float
cells of the two vertex regions (the mapped buffers of the streaming
backend, the `malloc` blocks of the copy backend); the four pointers are cell
indices into them.  `glCalls` is the trace of the calls issued so far. -/
structure Renderer where
  colorR : F32
  colorG : F32
  colorB : F32
  colorA : F32
  bufferDataIndex : Nat
  pVertexPosBufferData : Nat
  pVertexPosCurrent : Nat
  pVertexColBufferData : Nat
  pVertexColCurrent : Nat
  vertexPosVBO : Nat
  vertexColVBO : Nat
  posCells : Nat → F32
  colCells : Nat → F32
  glCalls : List GLCall

def flushBufferData0 (s : Renderer) : Renderer :=
  { s with
    glCalls := s.glCalls ++
      [GLCall.glBindBuffer GL_ARRAY_BUFFER s.vertexPosVBO,
       GLCall.glBufferSubData GL_ARRAY_BUFFER 0
         (toGLsizeiptr (sizeMul (sizeMul (sizeMul sizeofFloat s.bufferDataIndex) vertPerQuad) 2))
         s.pVertexPosBufferData,
       GLCall.glBindBuffer GL_ARRAY_BUFFER s.vertexColVBO,
       GLCall.glBufferSubData GL_ARRAY_BUFFER 0
         (toGLsizeiptr (sizeMul (sizeMul (sizeMul sizeofFloat s.bufferDataIndex) vertPerQuad) 4))
         s.pVertexColBufferData,
       GLCall.glDrawArrays GL_TRIANGLES 0 (toGLsizei (sizeMul s.bufferDataIndex vertPerQuad))]
    bufferDataIndex := 0
    pVertexPosCurrent := s.pVertexPosBufferData
    pVertexColCurrent := s.pVertexColBufferData }

def flushBufferData1 (s : Renderer) : Renderer :=
  { s with
    glCalls := s.glCalls ++
      [GLCall.glDrawArrays GL_TRIANGLES 0 (toGLsizei (sizeMul s.bufferDataIndex vertPerQuad))]
    bufferDataIndex := 0
    pVertexPosCurrent := s.pVertexPosBufferData
    pVertexColCurrent := s.pVertexColBufferData }

/-- The function `flush` as compiled. -/
def flush (s : Renderer) : Renderer :=
  if USE_DYNAMIC_STREAMING then flushBufferData1 s else flushBufferData0 s

/-- The function `setColor`; the parameter `a` defaults to `1.0f`. -/
def setColor (s : Renderer) (r g b : F32) (a : F32 := 1) : Renderer :=
  { s with colorR := r, colorG := g, colorB := b, colorA := a }

/-- The store `vPos[k] = v` through a `__m128*` equal to `ptr`. -/
def store128 (cells : Nat → F32) (ptr k : Nat) (v : M128) : Nat → F32 :=
  fun c => if h : ptr + 4 * k ≤ c ∧ c < ptr + 4 * k + 4 then v ⟨c - (ptr + 4 * k), by omega⟩
    else cells c

/-- The store `vColor[k] = v` through a `__m256*` equal to `ptr`. -/
def store256 (cells : Nat → F32) (ptr k : Nat) (v : M256) : Nat → F32 :=
  fun c => if h : ptr + 8 * k ≤ c ∧ c < ptr + 8 * k + 8 then v ⟨c - (ptr + 8 * k), by omega⟩
    else cells c

/-- The store `ptr[k] = v` through a `float*`. -/
def storeFloat (cells : Nat → F32) (ptr k : Nat) (v : F32) : Nat → F32 :=
  Function.update cells (ptr + k) v

/-- The tail common to both variants of `drawRect`: both write pointers move
on by 12 and 24 floats and `bufferDataIndex` is incremented. -/
def drawRectAdvance (s : Renderer) : Renderer :=
  { s with
    pVertexPosCurrent := s.pVertexPosCurrent + sizeofFloat * 12 / sizeofFloat
    pVertexColCurrent := s.pVertexColCurrent + sizeofFloat * 24 / sizeofFloat
    bufferDataIndex := (s.bufferDataIndex + 1) % SIZE_MAX1 }

/-- The `USE_SIMD` variant of `drawRect`. -/
def drawRectSimd (s : Renderer) (x y width height : F32) : Renderer :=
  let vPos := s.pVertexPosCurrent
  let s := { s with
    posCells := store128 s.posCells vPos 0 (_mm_setr_ps x y (x + width) (y + height)) }
  let s := { s with
    posCells := store128 s.posCells vPos 1 (_mm_setr_ps x (y + height) x y) }
  let s := { s with
    posCells := store128 s.posCells vPos 2 (_mm_setr_ps (x + width) y (x + width) (y + height)) }
  let vColor := s.pVertexColCurrent
  let s := { s with
    colCells := store256 s.colCells vColor 0
      (_mm256_setr_ps s.colorR s.colorG s.colorB 1 s.colorR s.colorG s.colorB 1) }
  let s := { s with
    colCells := store256 s.colCells vColor 1
      (_mm256_setr_ps s.colorR s.colorG s.colorB 1 s.colorR s.colorG s.colorB 1) }
  let s := { s with
    colCells := store256 s.colCells vColor 2
      (_mm256_setr_ps s.colorR s.colorG s.colorB 1 s.colorR s.colorG s.colorB 1) }
  drawRectAdvance s

/-- The position stores of the scalar variant of `drawRect`. -/
def drawRectScalarPos (cells : Nat → F32) (ptr : Nat) (x y width height : F32) : Nat → F32 :=
  let cells := storeFloat cells ptr 0 x
  let cells := storeFloat cells ptr 1 y
  let cells := storeFloat cells ptr 2 (x + width)
  let cells := storeFloat cells ptr 3 (y + height)
  let cells := storeFloat cells ptr 4 x
  let cells := storeFloat cells ptr 5 (y + height)
  let cells := storeFloat cells ptr 6 x
  let cells := storeFloat cells ptr 7 y
  let cells := storeFloat cells ptr 8 (x + width)
  let cells := storeFloat cells ptr 9 y
  let cells := storeFloat cells ptr 10 (x + width)
  storeFloat cells ptr 11 (y + height)

/-- The colour stores of the scalar variant of `drawRect`. -/
def drawRectScalarCol (cells : Nat → F32) (ptr : Nat) (r g b a : F32) : Nat → F32 :=
  let cells := storeFloat cells ptr 0 r
  let cells := storeFloat cells ptr 1 g
  let cells := storeFloat cells ptr 2 b
  let cells := storeFloat cells ptr 3 a
  let cells := storeFloat cells ptr 4 r
  let cells := storeFloat cells ptr 5 g
  let cells := storeFloat cells ptr 6 b
  let cells := storeFloat cells ptr 7 a
  let cells := storeFloat cells ptr 8 r
  let cells := storeFloat cells ptr 9 g
  let cells := storeFloat cells ptr 10 b
  let cells := storeFloat cells ptr 11 a
  let cells := storeFloat cells ptr 12 r
  let cells := storeFloat cells ptr 13 g
  let cells := storeFloat cells ptr 14 b
  let cells := storeFloat cells ptr 15 a
  let cells := storeFloat cells ptr 16 r
  let cells := storeFloat cells ptr 17 g
  let cells := storeFloat cells ptr 18 b
  let cells := storeFloat cells ptr 19 a
  let cells := storeFloat cells ptr 20 r
  let cells := storeFloat cells ptr 21 g
  let cells := storeFloat cells ptr 22 b
  storeFloat cells ptr 23 a

/-- The scalar variant of `drawRect`. -/
def drawRectScalar (s : Renderer) (x y width height : F32) : Renderer :=
  let s := { s with
    posCells := drawRectScalarPos s.posCells s.pVertexPosCurrent x y width height }
  let s := { s with
    colCells := drawRectScalarCol s.colCells s.pVertexColCurrent
      s.colorR s.colorG s.colorB s.colorA }
  drawRectAdvance s

/-- The function `drawRect` as compiled. -/
def drawRect (s : Renderer) (x y width height : F32) : Renderer :=
  if USE_SIMD then drawRectSimd s x y width height else drawRectScalar s x y width height

/-- The renderer after the first `n` iterations of the loop of
`renderParticles`. -/
def renderParticlesLoop (p : Particles) (s : Renderer) : Nat → Renderer
  | 0 => s
  | index + 1 =>
    let s := renderParticlesLoop p s index
    let s := setColor s (p.colorR index) (p.colorG index) (p.colorB index)
    drawRect s (p.positionX index) (p.positionY index) 2 2

def renderParticles (p : Particles) (s : Renderer) : Renderer :=
  renderParticlesLoop p s p.count

/-! ## Frame loop -/

/-- The key code `SDLK_ESCAPE`. -/
def SDLK_ESCAPE : Nat := 27

/-- An SDL event as far as the loop of `main` tells them apart. -/
inductive Event where
  | quit
  | keyDown (sym : Nat)
  | other
  deriving DecidableEq

/-- The variables of `main` that the frame loop reads and writes. -/
structure App where
  pParticles : Particles
  renderer : Renderer
  run : Bool

/-- The body of the `SDL_PollEvent` loop for one event. -/
def handleEvent (a : App) (event : Event) : App :=
  match event with
  | Event.quit => { a with run := false }
  | Event.keyDown sym =>
    if sym = SDLK_ESCAPE then { a with run := false }
    else if a.pParticles.count < SPRITE_COUNT then
      { a with pParticles := { a.pParticles with
          count := (a.pParticles.count + 10000) % SIZE_MAX1 } }
    else a
  | Event.other => a

/-- One pass of the body of `while (run)`; `events` are the events
`SDL_PollEvent` delivers in this pass. -/
def frame (a : App) (events : List Event) : App :=
  let p := updateParticles a.pParticles
  let s := renderParticles p a.renderer
  let s := flush s
  events.foldl handleEvent { a with pParticles := p, renderer := s }

/-- The loop `while (run)` over the passes for which events are given. -/
def mainLoop (a : App) : List (List Event) → App
  | [] => a
  | events :: rest => if a.run then mainLoop (frame a events) rest else a

/-- The state of `main` on entry to the frame loop: the particles are
constructed, both regions are mapped at `posBase` and `colBase` with the write
pointers at their start, and the globals have their static initialisers. -/
def initApp (mem : Particles) (vx vy cr cg cb : Nat → F32) (posBase colBase posVBO colVBO : Nat)
    (posCells colCells : Nat → F32) : App :=
  { pParticles := constructParticles mem vx vy cr cg cb
    renderer :=
      { colorR := 1
        colorG := 1
        colorB := 1
        colorA := 1
        bufferDataIndex := 0
        pVertexPosBufferData := posBase
        pVertexPosCurrent := posBase
        pVertexColBufferData := colBase
        pVertexColCurrent := colBase
        vertexPosVBO := posVBO
        vertexColVBO := colVBO
        posCells := posCells
        colCells := colCells
        glCalls := [] }
    run := true }

/-! ## Views, call sequences, invariants and concrete inputs used in the statements -/

/-- One particle at `positionX = 2000`, at rest, `count = 1`. -/
def tailStore : Particles :=
  { positionX := fun _ => 2000
    positionY := fun _ => 0
    velocityX := fun _ => 0
    velocityY := fun _ => 0
    colorR := fun _ => 1
    colorG := fun _ => 1
    colorB := fun _ => 1
    count := 1 }

/-- Eight particles at `(0, 100)` with velocity `(7, 0)`. -/
def scenario1 : Particles :=
  { positionX := fun _ => 0
    positionY := fun _ => 100
    velocityX := fun _ => 7
    velocityY := fun _ => 0
    colorR := fun _ => 1
    colorG := fun _ => 1
    colorB := fun _ => 1
    count := 8 }

/-- Eight particles at `positionX = appWidth - 1` with `velocityX = 10`. -/
def scenario2 : Particles :=
  { positionX := fun _ => 1079
    positionY := fun _ => 100
    velocityX := fun _ => 10
    velocityY := fun _ => 0
    colorR := fun _ => 1
    colorG := fun _ => 1
    colorB := fun _ => 1
    count := 8 }

/-- The second store has the count and colours of the first and agrees with it
on every cell from `count` on. -/
def SameOutside (p q : Particles) : Prop :=
  q.count = p.count ∧ q.colorR = p.colorR ∧ q.colorG = p.colorG ∧ q.colorB = p.colorB
  ∧ ∀ i, p.count ≤ i →
      q.positionX i = p.positionX i ∧ q.positionY i = p.positionY i
      ∧ q.velocityX i = p.velocityX i ∧ q.velocityY i = p.velocityY i

/-- The 12 position floats of a quad, in buffer order. -/
def quadFloats (x y width height : F32) : Fin 12 → F32 :=
  ![x, y, x + width, y + height, x, y + height, x, y, x + width, y, x + width, y + height]

/-- The 24 colour floats of a quad, in buffer order. -/
def quadColors (r g b a : F32) : Fin 24 → F32 :=
  ![r, g, b, a, r, g, b, a, r, g, b, a, r, g, b, a, r, g, b, a, r, g, b, a]

/-- Vertex `k` of the position region starting at cell `ptr`: two floats a
vertex, as `glVertexAttribPointer(locVertexPos, 2, GL_FLOAT, ...)` declares. -/
def vertexAt (cells : Nat → F32) (ptr k : Nat) : F32 × F32 :=
  (cells (ptr + 2 * k), cells (ptr + 2 * k + 1))

/-- Colour entry `k` of the colour region starting at cell `ptr`: four floats
an entry, as `glVertexAttribPointer(locVertexCol, 4, GL_FLOAT, ...)` declares. -/
def colorAt (cells : Nat → F32) (ptr k : Nat) : F32 × F32 × F32 × F32 :=
  (cells (ptr + 4 * k), cells (ptr + 4 * k + 1), cells (ptr + 4 * k + 2),
    cells (ptr + 4 * k + 3))

/-- A renderer with both regions at cell 0, zeroed, and nothing batched. -/
def blankRenderer : Renderer :=
  { colorR := 1
    colorG := 1
    colorB := 1
    colorA := 1
    bufferDataIndex := 0
    pVertexPosBufferData := 0
    pVertexPosCurrent := 0
    pVertexColBufferData := 0
    pVertexColCurrent := 0
    vertexPosVBO := 1
    vertexColVBO := 2
    posCells := fun _ => 0
    colCells := fun _ => 0
    glCalls := [] }

/-- A call of the drawing API between two flushes. -/
inductive DrawCmd where
  | setColor (r g b a : F32)
  | drawRect (x y width height : F32)

/-- The effect of one call. -/
def runCmd (s : Renderer) : DrawCmd → Renderer
  | DrawCmd.setColor r g b a => setColor s r g b a
  | DrawCmd.drawRect x y width height => drawRect s x y width height

/-- The effect of a sequence of calls, first to last. -/
def runCmds (s : Renderer) (cmds : List DrawCmd) : Renderer :=
  cmds.foldl runCmd s

/-- The number of `drawRect` calls in a sequence. -/
def countDraws : List DrawCmd → Nat
  | [] => 0
  | DrawCmd.setColor _ _ _ _ :: cmds => countDraws cmds
  | DrawCmd.drawRect _ _ _ _ :: cmds => countDraws cmds + 1

/-- A renderer with `n` quads batched. -/
def filledRenderer (n : Nat) : Renderer :=
  { blankRenderer with
    bufferDataIndex := n
    pVertexPosCurrent := 12 * n
    pVertexColCurrent := 24 * n }

/-- Two particles at `(3, 4)` and `(5, 6)` with colours `(1, 0, 0)` and
`(0, 1/2, 1)`. -/
def pairStore : Particles :=
  { positionX := fun i => if i = 0 then 3 else 5
    positionY := fun i => if i = 0 then 4 else 6
    velocityX := fun _ => 0
    velocityY := fun _ => 0
    colorR := fun i => if i = 0 then 1 else 0
    colorG := fun i => if i = 0 then 0 else F32.ofDec false 1 2
    colorB := fun i => if i = 0 then 0 else 1
    count := 2 }

/-- The invariant of the frame loop at a pass boundary: the count is a
multiple of 10000 within capacity and the batch is Empty, its regions at
`posBase` and `colBase`. -/
def FrameInv (posBase colBase : Nat) (a : App) : Prop :=
  10000 ∣ a.pParticles.count ∧ a.pParticles.count ≤ SPRITE_COUNT
  ∧ a.renderer.bufferDataIndex = 0
  ∧ a.renderer.pVertexPosCurrent = posBase ∧ a.renderer.pVertexColCurrent = colBase
  ∧ a.renderer.pVertexPosBufferData = posBase ∧ a.renderer.pVertexColBufferData = colBase


/-! ## Binary32 arithmetic: rounding and order -/

namespace F32

theorem add_def (a b : F32) : a + b = F32.add a b := rfl

theorem mul_def (a b : F32) : a * b = F32.mul a b := rfl

theorem shiftFrom_lt (fuel n d t : Nat) (h : n / (d * 2 ^ (t + fuel)) < 2 ^ 24) :
    n / (d * 2 ^ shiftFrom fuel n d t) < 2 ^ 24 := by
  induction fuel generalizing t with
  | zero => simpa [shiftFrom] using h
  | succ fuel ih =>
    unfold shiftFrom
    split_ifs with hc
    · exact hc
    · exact ih (t + 1) (by rwa [Nat.add_assoc, Nat.add_comm 1 fuel])

theorem shiftFrom_ge (fuel n d t : Nat) :
    shiftFrom fuel n d t = t
    ∨ (t < shiftFrom fuel n d t ∧ 2 ^ 24 ≤ n / (d * 2 ^ (shiftFrom fuel n d t - 1))) := by
  induction fuel generalizing t with
  | zero => exact Or.inl rfl
  | succ fuel ih =>
    unfold shiftFrom
    split_ifs with hc
    · exact Or.inl rfl
    · rcases ih (t + 1) with h | ⟨h1, h2⟩
      · right
        rw [h]
        exact ⟨by omega, by simpa using Nat.le_of_not_lt hc⟩
      · right
        exact ⟨by omega, h2⟩

theorem shift_lt (n d : Nat) (hd : 0 < d) : n / (d * 2 ^ shift n d) < 2 ^ 24 := by
  apply shiftFrom_lt
  have h1 : n < 2 ^ n := Nat.lt_two_pow n
  have h2 : n < d * 2 ^ (0 + n) := by
    rw [Nat.zero_add]
    calc n < 2 ^ n := h1
      _ ≤ d * 2 ^ n := Nat.le_mul_of_pos_left _ hd
  rw [Nat.div_eq_of_lt h2]
  exact Nat.two_pow_pos 24

theorem shift_ge (n d : Nat) (h : 0 < shift n d) :
    2 ^ 24 ≤ n / (d * 2 ^ (shift n d - 1)) := by
  rcases shiftFrom_ge n n d 0 with h0 | ⟨-, h2⟩
  · unfold shift at h
    omega
  · exact h2

/-- The quotient kept by the rounding is at least `2 ^ 23` once bits are
shifted out. -/
theorem shift_quot_ge (n d : Nat) (h : 0 < shift n d) :
    2 ^ 23 ≤ n / (d * 2 ^ shift n d) := by
  have h1 := shift_ge n d h
  have h2 : d * 2 ^ shift n d = d * 2 ^ (shift n d - 1) * 2 := by
    have : shift n d = (shift n d - 1) + 1 := by omega
    conv_lhs => rw [this, Nat.pow_succ]
    ring
  rw [h2, ← Nat.div_div_eq_div_mul]
  omega

theorem roundMag_ge (n d : Nat) : n / (d * 2 ^ shift n d) * 2 ^ shift n d ≤ roundMag n d := by
  unfold roundMag
  simp only []
  apply Nat.mul_le_mul_right
  split_ifs <;> omega

theorem roundMag_le (n d : Nat) :
    roundMag n d ≤ (n / (d * 2 ^ shift n d) + 1) * 2 ^ shift n d := by
  unfold roundMag
  simp only []
  apply Nat.mul_le_mul_right
  split_ifs <;> omega

theorem roundMag_exact (n d : Nat) (hd : 0 < d) (h : n % (d * 2 ^ shift n d) = 0) :
    roundMag n d = n / (d * 2 ^ shift n d) * 2 ^ shift n d := by
  unfold roundMag
  simp only []
  have hpos : 0 < d * 2 ^ shift n d := Nat.mul_pos hd (Nat.two_pow_pos _)
  rw [h, if_pos (by omega)]

/-- A magnitude of at least one unit is not rounded to zero. -/
theorem roundMag_pos (n d : Nat) (hd : 0 < d) (h : d ≤ n) : 0 < roundMag n d := by
  have hge := roundMag_ge n d
  have hq : 0 < n / (d * 2 ^ shift n d) := by
    by_cases ht : shift n d = 0
    · rw [ht, Nat.pow_zero, Nat.mul_one]
      exact Nat.div_pos h hd
    · have := shift_quot_ge n d (by omega)
      omega
  have : 0 < n / (d * 2 ^ shift n d) * 2 ^ shift n d := Nat.mul_pos hq (Nat.two_pow_pos _)
  omega

theorem roundMag_zero (d : Nat) : roundMag 0 d = 0 := by
  simp [roundMag, shift, shiftFrom]

/-- A magnitude whose significand fits in 24 bits is a multiple of `2 ^ t`
for the shift `t` of any magnitude at least as large. -/
theorem dvd_of_rep (g z : Nat) (hg : g % 2 ^ shift g 1 = 0) (hz : ¬ shift g 1 < shift z 1) :
    2 ^ shift z 1 ∣ g := by
  have h1 : 2 ^ shift z 1 ∣ 2 ^ shift g 1 := Nat.pow_dvd_pow 2 (by omega)
  exact Nat.dvd_trans h1 (Nat.dvd_of_mod_eq_zero hg)

theorem lt_of_shift_lt (g z : Nat) (h : shift g 1 < shift z 1) :
    g < z / (1 * 2 ^ shift z 1) * 2 ^ shift z 1 := by
  have hg := shift_lt g 1 (by decide)
  have hz := shift_quot_ge z 1 (by omega)
  rw [Nat.one_mul] at hg hz ⊢
  have h1 : g < 2 ^ 24 * 2 ^ shift g 1 := by
    rw [Nat.div_lt_iff_lt_mul (Nat.two_pow_pos _)] at hg
    exact hg
  have h2 : 2 ^ 24 * 2 ^ shift g 1 ≤ 2 ^ 23 * 2 ^ shift z 1 := by
    have h3 : 2 ^ (shift g 1 + 1) ≤ 2 ^ shift z 1 := Nat.pow_le_pow_right (by decide) (by omega)
    calc 2 ^ 24 * 2 ^ shift g 1 = 2 ^ 23 * 2 ^ (shift g 1 + 1) := by rw [Nat.pow_succ]; ring
      _ ≤ 2 ^ 23 * 2 ^ shift z 1 := Nat.mul_le_mul_left _ h3
  calc g < 2 ^ 24 * 2 ^ shift g 1 := h1
    _ ≤ 2 ^ 23 * 2 ^ shift z 1 := h2
    _ ≤ z / 2 ^ shift z 1 * 2 ^ shift z 1 := Nat.mul_le_mul_right _ hz

/-- Rounding a sum does not go below a binary32 magnitude that the exact
sum reaches. -/
theorem le_roundMag (g z : Nat) (hg : g % 2 ^ shift g 1 = 0) (h : g ≤ z) :
    g ≤ roundMag z 1 := by
  have hge := roundMag_ge z 1
  by_cases hs : shift g 1 < shift z 1
  · have := lt_of_shift_lt g z hs
    omega
  · obtain ⟨a, ha⟩ := dvd_of_rep g z hg hs
    rw [Nat.one_mul] at hge
    have h1 : a ≤ z / 2 ^ shift z 1 := by
      rw [Nat.le_div_iff_mul_le (Nat.two_pow_pos _)]
      rw [ha, Nat.mul_comm] at h
      exact h
    have h2 : a * 2 ^ shift z 1 ≤ z / 2 ^ shift z 1 * 2 ^ shift z 1 :=
      Nat.mul_le_mul_right _ h1
    rw [ha, Nat.mul_comm]
    omega

/-- Rounding a sum does not go above a binary32 magnitude that bounds the
exact sum. -/
theorem roundMag_le_of_le (g z : Nat) (hg : g % 2 ^ shift g 1 = 0) (h : z ≤ g) :
    roundMag z 1 ≤ g := by
  by_cases hr : z % (1 * 2 ^ shift z 1) = 0
  · rw [roundMag_exact z 1 (by decide) hr, Nat.one_mul]
    have := Nat.div_mul_le_self z (2 ^ shift z 1)
    omega
  · have hle := roundMag_le z 1
    rw [Nat.one_mul] at hle hr
    by_cases hs : shift g 1 < shift z 1
    · have h1 := lt_of_shift_lt g z hs
      rw [Nat.one_mul] at h1
      have := Nat.div_mul_le_self z (2 ^ shift z 1)
      omega
    · obtain ⟨a, ha⟩ := dvd_of_rep g z hg hs
      have hpos : 0 < 2 ^ shift z 1 := Nat.two_pow_pos _
      have hz : z / 2 ^ shift z 1 * 2 ^ shift z 1 + z % 2 ^ shift z 1 = z := by
        rw [Nat.mul_comm]
        exact Nat.div_add_mod z (2 ^ shift z 1)
      have h1 : z / 2 ^ shift z 1 < a := by
        by_contra hcon
        have h2 : a * 2 ^ shift z 1 ≤ z / 2 ^ shift z 1 * 2 ^ shift z 1 :=
          Nat.mul_le_mul_right _ (Nat.le_of_not_lt hcon)
        rw [ha, Nat.mul_comm] at h
        omega
      have h3 : (z / 2 ^ shift z 1 + 1) * 2 ^ shift z 1 ≤ a * 2 ^ shift z 1 :=
        Nat.mul_le_mul_right _ h1
      rw [ha, Nat.mul_comm (2 ^ shift z 1) a]
      omega

theorem lt_asymm (a b : F32) (h : lt a b = true) : lt b a = false := by
  cases a <;> cases b <;> simp_all [lt, toInt]
  split_ifs at h ⊢ <;> omega

theorem lt_trans (a b c : F32) (h1 : lt a b = true) (h2 : lt b c = true) : lt a c = true := by
  cases a <;> cases b <;> cases c <;> simp_all [lt, toInt]
  split_ifs at h1 h2 ⊢ <;> omega

theorem le_self (a : F32) (h : a ≠ nan) : le a a = true := by
  cases a <;> simp_all [le]

theorem sign_pos_iff (a : F32) : lt 0 a = true ↔ sign a = 1 := by
  have h0 : (0 : F32) = fin false 0 := by decide
  rw [h0]
  cases a with
  | nan => simp [lt, sign]
  | inf s => cases s <;> simp [lt, sign]
  | fin s m =>
    cases s <;> simp [lt, sign, toInt] <;> omega

theorem sign_neg_iff (a : F32) : lt a 0 = true ↔ sign a = -1 := by
  have h0 : (0 : F32) = fin false 0 := by decide
  rw [h0]
  cases a with
  | nan => simp [lt, sign]
  | inf s => cases s <;> simp [lt, sign]
  | fin s m =>
    cases s <;> simp [lt, sign, toInt] <;> omega

/-- Multiplying by a finite value of magnitude at least 1 keeps or flips the
sign according to the sign of that value: the product is not rounded to zero. -/
theorem sign_mul_fin (a : F32) (s : Bool) (mc : Nat) (h : 2 ^ 149 ≤ mc) :
    sign (a * fin s mc) = (if s then -1 else 1) * sign a := by
  have hmc : mc ≠ 0 := by
    have := Nat.two_pow_pos 149
    omega
  rw [mul_def]
  cases a with
  | nan => simp [mul, sign]
  | inf sa => cases sa <;> cases s <;> simp [mul, sign, hmc]
  | fin sa m =>
    by_cases hm : m = 0
    · subst hm
      simp [mul, round, roundMag_zero, sign, overflowMag]
    · have hpos : 0 < roundMag (m * mc) (2 ^ 149) := by
        apply roundMag_pos _ _ (Nat.two_pow_pos 149)
        calc 2 ^ 149 ≤ mc := h
          _ ≤ m * mc := Nat.le_mul_of_pos_left _ (by omega)
      have hne : roundMag (m * mc) (2 ^ 149) ≠ 0 := by omega
      simp only [mul, round]
      generalize roundMag (m * mc) (2 ^ 149) = R at hne ⊢
      cases sa <;> cases s <;> split_ifs <;> simp_all [sign]

/-- Rounding of a sum `a + b` with `a` plus or minus a binary32 magnitude `g`
and `b` not negative: a negative sum is rounded to a magnitude within `g`, a
positive one to a magnitude that is at least `a`. -/
theorem roundMag_add (g : Nat) (a b : Int) (hg : g % 2 ^ shift g 1 = 0)
    (ha : a = (g : Int) ∨ a = -(g : Int)) (hb : 0 ≤ b) :
    (a + b < 0 → a ≤ -((roundMag (a + b).natAbs 1 : Nat) : Int)
      ∧ roundMag (a + b).natAbs 1 ≤ g)
    ∧ (0 < a + b → a ≤ ((roundMag (a + b).natAbs 1 : Nat) : Int)) := by
  refine ⟨fun hneg => ?_, fun hpos => ?_⟩
  · have hle : (a + b).natAbs ≤ g := by omega
    have hB := roundMag_le_of_le g _ hg hle
    omega
  · rcases ha with ha | ha
    · have hle : g ≤ (a + b).natAbs := by omega
      have hA := le_roundMag g _ hg hle
      omega
    · omega

theorem toInt_cases (s : Bool) (g : Nat) : toInt s g = (g : Int) ∨ toInt s g = -(g : Int) := by
  cases s <;> simp [toInt]

/-- Adding a value that is not negative to a finite binary32 number does not
give a smaller value, and does not give a NaN. -/
theorem le_add_self (x w : F32) (hx : x.isFinite = true) (hw : le 0 w = true) :
    le x (x + w) = true ∧ le (x + w) (x + w) = true := by
  have h0 : (0 : F32) = fin false 0 := by decide
  rw [h0] at hw
  rw [add_def]
  cases x with
  | nan => simp [isFinite] at hx
  | inf sx => simp [isFinite] at hx
  | fin sx g =>
    simp only [isFinite, Bool.and_eq_true, decide_eq_true_eq] at hx
    obtain ⟨hgo, hg⟩ := hx
    cases w with
    | nan => simp [le] at hw
    | inf sw =>
      cases sw
      · simp [add, le]
      · simp [le] at hw
    | fin sw mw =>
      have hb : 0 ≤ toInt sw mw := by
        simpa [le, toInt] using hw
      obtain ⟨hN, hP⟩ := roundMag_add g (toInt sx g) (toInt sw mw) hg (toInt_cases sx g) hb
      simp only [add]
      generalize toInt sw mw = b at hb hN hP ⊢
      generalize ha : toInt sx g = a at hN hP ⊢
      split_ifs with hz
      · simp only [le, decide_eq_true_eq, le_refl, and_true, ha]
        simp only [toInt]
        split_ifs <;> omega
      · simp only [round]
        by_cases hneg : a + b < 0
        · obtain ⟨h1, h2⟩ := hN hneg
          rw [if_pos (by omega)]
          simp only [le, decide_eq_true_eq, le_refl, and_true, hneg, decide_True, ha]
          simpa [toInt] using h1
        · have h1 := hP (by omega)
          split_ifs
          · simp only [le, decide_eq_true_eq, le_refl, and_true, hneg, decide_False, ha]
            simpa [toInt] using h1
          · simp [le, hneg]

end F32

/-! ## The vector views and the physics step -/

theorem vstore_same (col : Nat → F32) (v : M256) (i : Nat) :
    vstore col (i / 8) v i = v ⟨i % 8, Nat.mod_lt i (by decide)⟩ := by
  simp [vstore]

theorem vstore_other (col : Nat → F32) (index : Nat) (v : M256) (i : Nat) (h : i / 8 ≠ index) :
    vstore col index v i = col i := by
  simp [vstore, h]

theorem vload_vstore (col : Nat → F32) (index : Nat) (v : M256) :
    vload (vstore col index v) index = v := by
  funext l
  have h1 : (8 * index + l.val) / 8 = index := by omega
  have h2 : (8 * index + l.val) % 8 = l.val := by omega
  simp [vload, vstore, h1, h2]

theorem vload_lane (col : Nat → F32) (i : Nat) :
    vload col (i / 8) ⟨i % 8, Nat.mod_lt i (by decide)⟩ = col i := by
  simp [vload, Nat.div_add_mod]

/-- What one iteration of the vector loop does to a cell of its own vector. -/
theorem updateParticlesSimdBody_lane (p : Particles) (i : Nat) :
    (updateParticlesSimdBody p (i / 8)).velocityY i
        = (p.velocityY i + gravity)
          * ((if F32.gt (p.positionY i + (p.velocityY i + gravity)) (F32.ofNat appHeight) then 1
              else bounceFactor) * bounceFactor)
    ∧ (updateParticlesSimdBody p (i / 8)).velocityX i
        = p.velocityX i
          * ((if F32.gt (p.positionX i + p.velocityX i) (F32.ofNat appWidth) then 1
              else bounceFactor) * bounceFactor)
          * ((if F32.lt (p.positionX i + p.velocityX i) 0 then 1 else bounceFactor)
              * bounceFactor)
    ∧ (updateParticlesSimdBody p (i / 8)).positionY i
        = (if F32.lt (p.positionY i + (p.velocityY i + gravity)) (F32.ofNat appHeight)
            then p.positionY i + (p.velocityY i + gravity) else F32.ofNat appHeight)
    ∧ (updateParticlesSimdBody p (i / 8)).positionX i
        = (if F32.gt (if F32.lt (p.positionX i + p.velocityX i) (F32.ofNat appWidth)
                then p.positionX i + p.velocityX i else F32.ofNat appWidth) 0
            then (if F32.lt (p.positionX i + p.velocityX i) (F32.ofNat appWidth)
                then p.positionX i + p.velocityX i else F32.ofNat appWidth)
            else 0) := by
  simp only [updateParticlesSimdBody, vload_vstore, vstore_same]
  simp only [_mm256_add_ps, _mm256_mul_ps, _mm256_min_ps, _mm256_max_ps, _mm256_blendv_ps,
    _mm256_cmp_ps_GT_OQ, _mm256_cmp_ps_LT_OQ, vGravity, vYLimits, vXLimitLeft, vXLimitRight,
    vBounceMask, vOne, _mm256_set1_ps, vload_lane, and_self]

/-- An iteration of the vector loop leaves the cells of the other vectors alone. -/
theorem updateParticlesSimdBody_other (p : Particles) (index i : Nat) (h : i / 8 ≠ index) :
    (updateParticlesSimdBody p index).positionX i = p.positionX i
    ∧ (updateParticlesSimdBody p index).positionY i = p.positionY i
    ∧ (updateParticlesSimdBody p index).velocityX i = p.velocityX i
    ∧ (updateParticlesSimdBody p index).velocityY i = p.velocityY i := by
  simp [updateParticlesSimdBody, vstore_other, h]

/-- An iteration of the vector loop writes neither the colours nor the count. -/
theorem updateParticlesSimdBody_fixed (p : Particles) (index : Nat) :
    (updateParticlesSimdBody p index).colorR = p.colorR
    ∧ (updateParticlesSimdBody p index).colorG = p.colorG
    ∧ (updateParticlesSimdBody p index).colorB = p.colorB
    ∧ (updateParticlesSimdBody p index).count = p.count := by
  simp [updateParticlesSimdBody]

theorem updateParticlesSimdLoop_fixed (p : Particles) (n : Nat) :
    (updateParticlesSimdLoop p n).colorR = p.colorR
    ∧ (updateParticlesSimdLoop p n).colorG = p.colorG
    ∧ (updateParticlesSimdLoop p n).colorB = p.colorB
    ∧ (updateParticlesSimdLoop p n).count = p.count := by
  induction n with
  | zero => simp [updateParticlesSimdLoop]
  | succ n ih =>
    obtain ⟨h1, h2, h3, h4⟩ := updateParticlesSimdBody_fixed (updateParticlesSimdLoop p n) n
    simp only [updateParticlesSimdLoop, h1, h2, h3, h4]
    exact ih

/-- After `n` iterations the vectors `n, n + 1, ...` are still as they were. -/
theorem updateParticlesSimdLoop_untouched (p : Particles) (n i : Nat) (h : n ≤ i / 8) :
    (updateParticlesSimdLoop p n).positionX i = p.positionX i
    ∧ (updateParticlesSimdLoop p n).positionY i = p.positionY i
    ∧ (updateParticlesSimdLoop p n).velocityX i = p.velocityX i
    ∧ (updateParticlesSimdLoop p n).velocityY i = p.velocityY i := by
  induction n with
  | zero => simp [updateParticlesSimdLoop]
  | succ n ih =>
    obtain ⟨h1, h2, h3, h4⟩ :=
      updateParticlesSimdBody_other (updateParticlesSimdLoop p n) n i (by omega)
    simp only [updateParticlesSimdLoop, h1, h2, h3, h4]
    exact ih (by omega)

/-- After `n` iterations a cell of one of the first `n` vectors holds what the
iteration of its vector computes from the initial store. -/
theorem updateParticlesSimdLoop_touched (p : Particles) (n i : Nat) (h : i / 8 < n) :
    (updateParticlesSimdLoop p n).positionX i = (updateParticlesSimdBody p (i / 8)).positionX i
    ∧ (updateParticlesSimdLoop p n).positionY i = (updateParticlesSimdBody p (i / 8)).positionY i
    ∧ (updateParticlesSimdLoop p n).velocityX i = (updateParticlesSimdBody p (i / 8)).velocityX i
    ∧ (updateParticlesSimdLoop p n).velocityY i
        = (updateParticlesSimdBody p (i / 8)).velocityY i := by
  induction n with
  | zero => omega
  | succ n ih =>
    by_cases hn : i / 8 = n
    · obtain ⟨u1, u2, u3, u4⟩ := updateParticlesSimdLoop_untouched p n i (by omega)
      obtain ⟨a1, a2, a3, a4⟩ := updateParticlesSimdBody_lane (updateParticlesSimdLoop p n) i
      obtain ⟨b1, b2, b3, b4⟩ := updateParticlesSimdBody_lane p i
      rw [hn] at a1 a2 a3 a4
      simp only [updateParticlesSimdLoop]
      rw [a1, a2, a3, a4, b1, b2, b3, b4, u1, u2, u3, u4]
      exact ⟨rfl, rfl, rfl, rfl⟩
    · obtain ⟨h1, h2, h3, h4⟩ :=
        updateParticlesSimdBody_other (updateParticlesSimdLoop p n) n i hn
      simp only [updateParticlesSimdLoop, h1, h2, h3, h4]
      exact ih (by omega)

theorem updateParticles_eq (p : Particles) : updateParticles p = updateParticlesSimd p := by
  simp [updateParticles, USE_SIMD]

/-- The cells the vector loop processes, in terms of the initial store. -/
theorem updateParticles_lane (p : Particles) (i : Nat) (h : i < 8 * (p.count / 8)) :
    (updateParticles p).velocityY i
        = (p.velocityY i + gravity)
          * ((if F32.gt (p.positionY i + (p.velocityY i + gravity)) (F32.ofNat appHeight) then 1
              else bounceFactor) * bounceFactor)
    ∧ (updateParticles p).velocityX i
        = p.velocityX i
          * ((if F32.gt (p.positionX i + p.velocityX i) (F32.ofNat appWidth) then 1
              else bounceFactor) * bounceFactor)
          * ((if F32.lt (p.positionX i + p.velocityX i) 0 then 1 else bounceFactor)
              * bounceFactor)
    ∧ (updateParticles p).positionY i
        = (if F32.lt (p.positionY i + (p.velocityY i + gravity)) (F32.ofNat appHeight)
            then p.positionY i + (p.velocityY i + gravity) else F32.ofNat appHeight)
    ∧ (updateParticles p).positionX i
        = (if F32.gt (if F32.lt (p.positionX i + p.velocityX i) (F32.ofNat appWidth)
                then p.positionX i + p.velocityX i else F32.ofNat appWidth) 0
            then (if F32.lt (p.positionX i + p.velocityX i) (F32.ofNat appWidth)
                then p.positionX i + p.velocityX i else F32.ofNat appWidth)
            else 0) := by
  have hi : i / 8 < p.count / 8 := by omega
  obtain ⟨t1, t2, t3, t4⟩ := updateParticlesSimdLoop_touched p (p.count / 8) i hi
  obtain ⟨b1, b2, b3, b4⟩ := updateParticlesSimdBody_lane p i
  rw [updateParticles_eq, updateParticlesSimd, t1, t2, t3, t4]
  exact ⟨b1, b2, b3, b4⟩

theorem F32.lt_le (a b : F32) (h : F32.lt a b = true) : F32.le a b = true := by
  cases a <;> cases b <;> simp_all [F32.lt, F32.le]
  omega

theorem F32.add_nan (a : F32) : a + F32.nan = F32.nan := by
  rw [F32.add_def]
  cases a <;> rfl

theorem F32.lt_nan (a : F32) : F32.lt a F32.nan = false := by
  cases a <;> rfl

theorem F32.nan_lt (a : F32) : F32.lt F32.nan a = false := by
  cases a <;> rfl

theorem F32.sign_ne_zero (a : F32) (hn : a ≠ F32.nan) (hz : a.isZero = false) :
    F32.sign a ≠ 0 := by
  cases a with
  | nan => exact absurd rfl hn
  | inf s => cases s <;> simp [F32.sign]
  | fin s m =>
    have hm : m ≠ 0 := by simpa [F32.isZero] using hz
    cases s <;> simp [F32.sign, hm]

/-- A sum is rounded to binary32: `1080 + 2 ^ (-20)` is `1080`, and so is
not greater than `appWidth`. -/
theorem F32.add_rounds :
    (1080 : F32) + F32.fin false (2 ^ 129) = 1080
    ∧ F32.gt ((1080 : F32) + F32.fin false (2 ^ 129)) (F32.ofNat appWidth) = false
    ∧ F32.ofNat (2 ^ 24) + 1 = F32.ofNat (2 ^ 24) := by
  decide

theorem bounceFactor_eq : bounceFactor = F32.fin true (8392802 * 2 ^ 126) := by decide

theorem one_mul_bounceFactor : (1 : F32) * bounceFactor = bounceFactor := by decide

theorem bounceFactor_sq : bounceFactor * bounceFactor = F32.fin false (8396998 * 2 ^ 126) := by
  decide

/-- A multiplication by the bounce factor flips the sign. -/
theorem sign_mul_bounceFactor (v : F32) :
    F32.sign (v * bounceFactor) = -F32.sign v := by
  rw [bounceFactor_eq, F32.sign_mul_fin v true _ (by decide)]
  simp

/-- A multiplication by the rounded square of the bounce factor keeps the sign. -/
theorem sign_mul_bounceFactor_sq (v : F32) :
    F32.sign (v * (bounceFactor * bounceFactor)) = F32.sign v := by
  rw [bounceFactor_sq, F32.sign_mul_fin v false _ (by decide)]
  simp

theorem zero_lt_appWidth : F32.lt 0 (F32.ofNat appWidth) = true := by decide

theorem appWidth_gt_zero : F32.gt (F32.ofNat appWidth) 0 = true := by decide

/-- After one `updateParticles` every cell of a processed vector,
`i < 8 * (count / 8)`, has `0 <= positionX <= appWidth` and
`positionY <= appHeight`, whatever the values before, a NaN included. -/
theorem updateParticles_clamped (p : Particles) (i : Nat) (h : i < 8 * (p.count / 8)) :
    F32.le 0 ((updateParticles p).positionX i) = true
    ∧ F32.le ((updateParticles p).positionX i) (F32.ofNat appWidth) = true
    ∧ F32.le ((updateParticles p).positionY i) (F32.ofNat appHeight) = true := by
  obtain ⟨-, -, hy, hx⟩ := updateParticles_lane p i h
  rw [hx, hy, ← and_assoc]
  have hW : F32.le (F32.ofNat appWidth) (F32.ofNat appWidth) = true := by decide
  have hH : F32.le (F32.ofNat appHeight) (F32.ofNat appHeight) = true := by decide
  have h0 : F32.le (0 : F32) 0 = true := by decide
  have h0W : F32.le (0 : F32) (F32.ofNat appWidth) = true := by decide
  refine ⟨?_, ?_⟩
  · by_cases h1 : F32.lt (p.positionX i + p.velocityX i) (F32.ofNat appWidth) = true
    · rw [if_pos h1]
      by_cases h2 : F32.gt (p.positionX i + p.velocityX i) 0 = true
      · rw [if_pos h2]
        exact ⟨F32.lt_le _ _ h2, F32.lt_le _ _ h1⟩
      · rw [if_neg h2]
        exact ⟨h0, h0W⟩
    · rw [if_neg h1, if_pos appWidth_gt_zero]
      exact ⟨h0W, hW⟩
  · split_ifs with h1
    · exact F32.lt_le _ _ h1
    · exact hH

/-- C1 (the code at a store with `count = 1`): the vector loop runs
`1 / 8 = 0` times, so the active particle 0 keeps `positionX = 2000`, which is
greater than `appWidth`; the scalar variant of the loop processes particle 0
and clamps it to `appWidth - 100`. -/
theorem updateParticles_tail_unclamped :
    tailStore.count ≤ SPRITE_COUNT ∧ 0 < tailStore.count
    ∧ (updateParticles tailStore).positionX 0 = 2000
    ∧ F32.gt ((updateParticles tailStore).positionX 0) (F32.ofNat appWidth) = true
    ∧ F32.le ((updateParticles tailStore).positionX 0) (F32.ofNat appWidth) = false
    ∧ (updateParticlesScalar tailStore).positionX 0 = F32.ofNat (appWidth - 100)
    ∧ F32.le ((updateParticlesScalar tailStore).positionX 0) (F32.ofNat appWidth) = true := by
  have h : (updateParticles tailStore).positionX 0 = 2000 := by
    simp [updateParticles, USE_SIMD, updateParticlesSimd, updateParticlesSimdLoop, tailStore]
  have hs : (updateParticlesScalar tailStore).positionX 0 = F32.ofNat (appWidth - 100) := by
    decide
  refine ⟨by decide, by decide, h, ?_, ?_, hs, ?_⟩
  · rw [h]; decide
  · rw [h]; decide
  · rw [hs]; decide

/-- C3: with `count` a multiple of 8 and `i < count`: a particle of non-zero
`velocityX` whose integrated `positionX` (the binary32 sum the loop stores)
exceeds `appWidth` ends at `positionX = appWidth` with the sign of `velocityX`
flipped; one whose integrated `positionX` is below 0 ends at `positionX = 0`
with the sign of `velocityX` flipped; and when the integrated `positionY`
exceeds `appHeight` the new `velocityY` has the sign opposite to
`velocityY + gravity`. -/
theorem updateParticles_bounce_sign (p : Particles) (i : Nat) (h8 : p.count % 8 = 0)
    (hi : i < p.count) :
    ((p.velocityX i).isZero = false →
      F32.gt (p.positionX i + p.velocityX i) (F32.ofNat appWidth) = true →
        (updateParticles p).positionX i = F32.ofNat appWidth
        ∧ F32.sign ((updateParticles p).velocityX i) = -F32.sign (p.velocityX i)
        ∧ F32.sign ((updateParticles p).velocityX i) ≠ F32.sign (p.velocityX i))
    ∧ ((p.velocityX i).isZero = false →
      F32.lt (p.positionX i + p.velocityX i) 0 = true →
        (updateParticles p).positionX i = 0
        ∧ F32.sign ((updateParticles p).velocityX i) = -F32.sign (p.velocityX i)
        ∧ F32.sign ((updateParticles p).velocityX i) ≠ F32.sign (p.velocityX i))
    ∧ (F32.gt (p.positionY i + (p.velocityY i + gravity)) (F32.ofNat appHeight) = true →
        F32.sign ((updateParticles p).velocityY i)
          = -F32.sign (p.velocityY i + gravity)) := by
  obtain ⟨hvy, hvx, -, hpx⟩ := updateParticles_lane p i (by omega)
  have hne : ∀ w : F32, (p.velocityX i).isZero = false →
      (F32.lt w (p.positionX i + p.velocityX i) = true
        ∨ F32.lt (p.positionX i + p.velocityX i) w = true) →
      -F32.sign (p.velocityX i) ≠ F32.sign (p.velocityX i) := by
    intro w hz hcmp
    have hn : p.velocityX i ≠ F32.nan := by
      intro hnan
      rw [hnan, F32.add_nan] at hcmp
      rcases hcmp with hc | hc
      · rw [F32.lt_nan] at hc
        exact Bool.false_ne_true hc
      · rw [F32.nan_lt] at hc
        exact Bool.false_ne_true hc
    have := F32.sign_ne_zero _ hn hz
    omega
  refine ⟨fun hv hR => ?_, fun hv hL => ?_, fun hY => ?_⟩
  · have hR' : F32.lt (F32.ofNat appWidth) (p.positionX i + p.velocityX i) = true := hR
    have h1 : F32.lt (p.positionX i + p.velocityX i) (F32.ofNat appWidth) = false :=
      F32.lt_asymm _ _ hR'
    have h2 : F32.lt (p.positionX i + p.velocityX i) 0 = false :=
      F32.lt_asymm _ _ (F32.lt_trans _ _ _ zero_lt_appWidth hR')
    have hs : F32.sign ((updateParticles p).velocityX i) = -F32.sign (p.velocityX i) := by
      rw [hvx, hR, h2]
      simp only [if_true, Bool.false_eq_true, if_false]
      rw [one_mul_bounceFactor, sign_mul_bounceFactor_sq, sign_mul_bounceFactor]
    refine ⟨?_, hs, hs ▸ hne _ hv (Or.inl hR')⟩
    rw [hpx, h1]
    simp only [Bool.false_eq_true, if_false]
    rw [if_pos appWidth_gt_zero]
  · have h1 : F32.lt (p.positionX i + p.velocityX i) (F32.ofNat appWidth) = true :=
      F32.lt_trans _ _ _ hL zero_lt_appWidth
    have h2 : F32.gt (p.positionX i + p.velocityX i) (F32.ofNat appWidth) = false :=
      F32.lt_asymm _ _ h1
    have h3 : F32.gt (p.positionX i + p.velocityX i) 0 = false := F32.lt_asymm _ _ hL
    have hs : F32.sign ((updateParticles p).velocityX i) = -F32.sign (p.velocityX i) := by
      rw [hvx, h2, hL]
      simp only [if_true, Bool.false_eq_true, if_false]
      rw [one_mul_bounceFactor, sign_mul_bounceFactor, sign_mul_bounceFactor_sq]
    refine ⟨?_, hs, hs ▸ hne _ hv (Or.inr hL)⟩
    rw [hpx, h1]
    simp only [if_true]
    rw [h3]
    simp only [Bool.false_eq_true, if_false]
  · rw [hvy, hY]
    simp only [if_true]
    rw [one_mul_bounceFactor, sign_mul_bounceFactor]

/-- C3 at eight particles with `positionX = appWidth - 1` and `velocityX = 10`:
they end at `positionX = appWidth` with `velocityX < 0`. -/
theorem updateParticles_bounce_sign_witness :
    (updateParticles scenario2).positionX 0 = F32.ofNat appWidth
    ∧ F32.lt ((updateParticles scenario2).velocityX 0) 0 = true := by
  have h := (updateParticles_bounce_sign scenario2 0 (by decide) (by decide)).1
    (by decide) (by decide)
  refine ⟨h.1, ?_⟩
  have hs := h.2.1
  rw [show F32.sign (scenario2.velocityX 0) = 1 from by decide] at hs
  exact (F32.sign_neg_iff _).mpr hs

theorem SameOutside.iterate (f : Particles → Particles) (hf : ∀ p, SameOutside p (f p))
    (p : Particles) (n : Nat) : SameOutside p (f^[n] p) := by
  induction n with
  | zero => exact ⟨rfl, rfl, rfl, rfl, fun _ _ => ⟨rfl, rfl, rfl, rfl⟩⟩
  | succ n ih =>
    rw [Function.iterate_succ_apply']
    obtain ⟨c, r, g, b, h⟩ := ih
    obtain ⟨c1, r1, g1, b1, h1⟩ := hf (f^[n] p)
    refine ⟨c1.trans c, r1.trans r, g1.trans g, b1.trans b, fun i hi => ?_⟩
    obtain ⟨x, y, vx, vy⟩ := h i hi
    obtain ⟨x1, y1, vx1, vy1⟩ := h1 i (by omega)
    exact ⟨x1.trans x, y1.trans y, vx1.trans vx, vy1.trans vy⟩

theorem updateParticlesSimd_sameOutside (p : Particles) :
    SameOutside p (updateParticlesSimd p) := by
  obtain ⟨r, g, b, c⟩ := updateParticlesSimdLoop_fixed p (p.count / 8)
  refine ⟨c, r, g, b, fun i hi => ?_⟩
  exact updateParticlesSimdLoop_untouched p (p.count / 8) i (by omega)

theorem updateParticlesScalarBody_other (p : Particles) (index i : Nat) (h : i ≠ index) :
    (updateParticlesScalarBody p index).positionX i = p.positionX i
    ∧ (updateParticlesScalarBody p index).positionY i = p.positionY i
    ∧ (updateParticlesScalarBody p index).velocityX i = p.velocityX i
    ∧ (updateParticlesScalarBody p index).velocityY i = p.velocityY i := by
  unfold updateParticlesScalarBody
  simp only
  split_ifs <;> simp [Function.update_noteq h]

theorem updateParticlesScalarBody_fixed (p : Particles) (index : Nat) :
    (updateParticlesScalarBody p index).colorR = p.colorR
    ∧ (updateParticlesScalarBody p index).colorG = p.colorG
    ∧ (updateParticlesScalarBody p index).colorB = p.colorB
    ∧ (updateParticlesScalarBody p index).count = p.count := by
  unfold updateParticlesScalarBody
  simp only
  split_ifs <;> simp

theorem updateParticlesScalarLoop_fixed (p : Particles) (n : Nat) :
    (updateParticlesScalarLoop p n).colorR = p.colorR
    ∧ (updateParticlesScalarLoop p n).colorG = p.colorG
    ∧ (updateParticlesScalarLoop p n).colorB = p.colorB
    ∧ (updateParticlesScalarLoop p n).count = p.count := by
  induction n with
  | zero => simp [updateParticlesScalarLoop]
  | succ n ih =>
    obtain ⟨h1, h2, h3, h4⟩ := updateParticlesScalarBody_fixed (updateParticlesScalarLoop p n) n
    simp only [updateParticlesScalarLoop, h1, h2, h3, h4]
    exact ih

theorem updateParticlesScalarLoop_untouched (p : Particles) (n i : Nat) (h : n ≤ i) :
    (updateParticlesScalarLoop p n).positionX i = p.positionX i
    ∧ (updateParticlesScalarLoop p n).positionY i = p.positionY i
    ∧ (updateParticlesScalarLoop p n).velocityX i = p.velocityX i
    ∧ (updateParticlesScalarLoop p n).velocityY i = p.velocityY i := by
  induction n with
  | zero => simp [updateParticlesScalarLoop]
  | succ n ih =>
    obtain ⟨h1, h2, h3, h4⟩ :=
      updateParticlesScalarBody_other (updateParticlesScalarLoop p n) n i (by omega)
    simp only [updateParticlesScalarLoop, h1, h2, h3, h4]
    exact ih (by omega)

theorem updateParticlesScalar_sameOutside (p : Particles) :
    SameOutside p (updateParticlesScalar p) := by
  obtain ⟨r, g, b, c⟩ := updateParticlesScalarLoop_fixed p p.count
  exact ⟨c, r, g, b, fun i hi => updateParticlesScalarLoop_untouched p p.count i hi⟩

theorem updateParticlesScalarBody_velocityY (p : Particles) (i : Nat) :
    (updateParticlesScalarBody p i).velocityY i
      = if F32.gt (p.positionY i + (p.velocityY i + gravity)) (F32.ofNat (appHeight - 100))
        then (p.velocityY i + gravity) * F32.ofDec true 101 100 else p.velocityY i + gravity := by
  unfold updateParticlesScalarBody
  simp only [Function.update_same]
  split_ifs <;> simp_all

theorem updateParticlesScalarLoop_touched_velocityY (p : Particles) (n i : Nat) (h : i < n) :
    (updateParticlesScalarLoop p n).velocityY i = (updateParticlesScalarBody p i).velocityY i := by
  induction n with
  | zero => omega
  | succ n ih =>
    by_cases hn : i = n
    · obtain ⟨-, u2, -, u4⟩ := updateParticlesScalarLoop_untouched p n i (by omega)
      subst hn
      simp only [updateParticlesScalarLoop]
      rw [updateParticlesScalarBody_velocityY, updateParticlesScalarBody_velocityY, u2, u4]
    · obtain ⟨-, -, -, h4⟩ :=
        updateParticlesScalarBody_other (updateParticlesScalarLoop p n) n i hn
      simp only [updateParticlesScalarLoop, h4]
      exact ih (by omega)

/-- The lane formulas of the vector loop and of the scalar loop evaluated at
position `(0, 100)` and velocity `(7, 0)`. -/
theorem scenario1_lane :
    (if F32.lt (100 + (0 + gravity)) (F32.ofNat appHeight) then 100 + (0 + gravity)
      else F32.ofNat appHeight) = F32.ofDec false 203 2
    ∧ (0 + gravity)
        * ((if F32.gt (100 + (0 + gravity)) (F32.ofNat appHeight) then 1 else bounceFactor)
          * bounceFactor) = gravity * (bounceFactor * bounceFactor)
    ∧ (0 + gravity)
        * ((if F32.gt (100 + (0 + gravity)) (F32.ofNat appHeight) then 1 else bounceFactor)
          * bounceFactor) = F32.fin false (12595497 * 2 ^ 126)
    ∧ (0 + gravity)
        * ((if F32.gt (100 + (0 + gravity)) (F32.ofNat appHeight) then 1 else bounceFactor)
          * bounceFactor) ≠ gravity
    ∧ 7 * ((if F32.gt (0 + 7) (F32.ofNat appWidth) then 1 else bounceFactor) * bounceFactor)
        * ((if F32.lt (0 + 7) 0 then 1 else bounceFactor) * bounceFactor)
        = 7 * (bounceFactor * bounceFactor) * (bounceFactor * bounceFactor)
    ∧ 7 * ((if F32.gt (0 + 7) (F32.ofNat appWidth) then 1 else bounceFactor) * bounceFactor)
        * ((if F32.lt (0 + 7) 0 then 1 else bounceFactor) * bounceFactor)
        = F32.fin false (14709443 * 2 ^ 128)
    ∧ 7 * ((if F32.gt (0 + 7) (F32.ofNat appWidth) then 1 else bounceFactor) * bounceFactor)
        * ((if F32.lt (0 + 7) 0 then 1 else bounceFactor) * bounceFactor) ≠ 7
    ∧ (if F32.gt (100 + (0 + gravity)) (F32.ofNat (appHeight - 100))
        then (0 + gravity) * F32.ofDec true 101 100 else 0 + gravity) = gravity := by
  decide

/-- C2 (the code at the claim's own scenario): eight particles at `(0, 100)`
with velocity `(7, 0)` cross none of the three boundaries, and after one
`updateParticles` `positionY` is `101.5` but `velocityY` is
`1.5 * (bounceFactor * bounceFactor)`, the binary32 number
`12595497 * 2 ^ (-23)` (about 1.5015), not `1.5`, and `velocityX` is
`7 * (bounceFactor * bounceFactor) * (bounceFactor * bounceFactor)`, the
binary32 number `14709443 * 2 ^ (-21)` (about 7.014), not `7`: the multiplier
of a test that is false is `bounceFactor * bounceFactor`, not `1`.  The scalar
variant of the loop yields `velocityY = 1.5` there. -/
theorem updateParticles_scenario1 :
    scenario1.count = 8 ∧ ∀ i, i < 8 →
      (updateParticles scenario1).positionY i = F32.ofDec false 203 2
      ∧ (updateParticles scenario1).velocityY i = gravity * (bounceFactor * bounceFactor)
      ∧ (updateParticles scenario1).velocityY i = F32.fin false (12595497 * 2 ^ 126)
      ∧ (updateParticles scenario1).velocityY i ≠ gravity
      ∧ (updateParticles scenario1).velocityX i
          = 7 * (bounceFactor * bounceFactor) * (bounceFactor * bounceFactor)
      ∧ (updateParticles scenario1).velocityX i = F32.fin false (14709443 * 2 ^ 128)
      ∧ (updateParticles scenario1).velocityX i ≠ 7
      ∧ (updateParticlesScalar scenario1).velocityY i = gravity := by
  refine ⟨rfl, fun i hi => ?_⟩
  have h : i < 8 * (scenario1.count / 8) := by simpa [scenario1] using hi
  have hi2 : i < scenario1.count := hi
  obtain ⟨hvy, hvx, hpy, -⟩ := updateParticles_lane scenario1 i h
  rw [hvy, hvx, hpy, updateParticlesScalar,
    updateParticlesScalarLoop_touched_velocityY _ _ _ hi2, updateParticlesScalarBody_velocityY]
  exact scenario1_lane

/-- C8: after any number `n` of `updateParticles` calls the count and the
three colour columns are those of the initial store, and every cell
`i >= count` of `positionX`, `positionY`, `velocityX`, `velocityY` is
unchanged; the same holds of the scalar variant of the loop. -/
theorem updateParticles_frame (p : Particles) (n : Nat) :
    ((updateParticles^[n] p).count = p.count
      ∧ (updateParticles^[n] p).colorR = p.colorR
      ∧ (updateParticles^[n] p).colorG = p.colorG
      ∧ (updateParticles^[n] p).colorB = p.colorB
      ∧ ∀ i, p.count ≤ i →
          (updateParticles^[n] p).positionX i = p.positionX i
          ∧ (updateParticles^[n] p).positionY i = p.positionY i
          ∧ (updateParticles^[n] p).velocityX i = p.velocityX i
          ∧ (updateParticles^[n] p).velocityY i = p.velocityY i)
    ∧ ((updateParticlesScalar^[n] p).count = p.count
      ∧ (updateParticlesScalar^[n] p).colorR = p.colorR
      ∧ (updateParticlesScalar^[n] p).colorG = p.colorG
      ∧ (updateParticlesScalar^[n] p).colorB = p.colorB
      ∧ ∀ i, p.count ≤ i →
          (updateParticlesScalar^[n] p).positionX i = p.positionX i
          ∧ (updateParticlesScalar^[n] p).positionY i = p.positionY i
          ∧ (updateParticlesScalar^[n] p).velocityX i = p.velocityX i
          ∧ (updateParticlesScalar^[n] p).velocityY i = p.velocityY i) := by
  refine ⟨SameOutside.iterate updateParticles (fun q => ?_) p n,
    SameOutside.iterate updateParticlesScalar updateParticlesScalar_sameOutside p n⟩
  rw [updateParticles_eq]
  exact updateParticlesSimd_sameOutside q

/-! ## The batch renderer and the frame loop -/

theorem store128_in (cells : Nat → F32) (ptr k : Nat) (v : M128) (l : Fin 4) :
    store128 cells ptr k v (ptr + 4 * k + l.val) = v l := by
  have h : ptr + 4 * k ≤ ptr + 4 * k + l.val ∧ ptr + 4 * k + l.val < ptr + 4 * k + 4 := by
    omega
  simp [store128, h]

theorem store128_out (cells : Nat → F32) (ptr k : Nat) (v : M128) (c : Nat)
    (h : c < ptr + 4 * k ∨ ptr + 4 * k + 4 ≤ c) :
    store128 cells ptr k v c = cells c := by
  have h' : ¬ (ptr + 4 * k ≤ c ∧ c < ptr + 4 * k + 4) := by omega
  simp [store128, h']

theorem store256_in (cells : Nat → F32) (ptr k : Nat) (v : M256) (l : Fin 8) :
    store256 cells ptr k v (ptr + 8 * k + l.val) = v l := by
  have h : ptr + 8 * k ≤ ptr + 8 * k + l.val ∧ ptr + 8 * k + l.val < ptr + 8 * k + 8 := by
    omega
  simp [store256, h]

theorem store256_out (cells : Nat → F32) (ptr k : Nat) (v : M256) (c : Nat)
    (h : c < ptr + 8 * k ∨ ptr + 8 * k + 8 ≤ c) :
    store256 cells ptr k v c = cells c := by
  have h' : ¬ (ptr + 8 * k ≤ c ∧ c < ptr + 8 * k + 8) := by omega
  simp [store256, h']

theorem drawRectSimd_posCells_in (s : Renderer) (x y width height : F32) (j : Fin 12) :
    (drawRectSimd s x y width height).posCells (s.pVertexPosCurrent + j.val)
      = quadFloats x y width height j := by
  fin_cases j <;> simp [drawRectSimd, drawRectAdvance, store128, _mm_setr_ps, quadFloats] <;> rfl

theorem drawRectSimd_posCells_out (s : Renderer) (x y width height : F32) (c : Nat)
    (h : c < s.pVertexPosCurrent ∨ s.pVertexPosCurrent + 12 ≤ c) :
    (drawRectSimd s x y width height).posCells c = s.posCells c := by
  simp only [drawRectSimd, drawRectAdvance]
  rw [store128_out _ _ _ _ _ (by omega), store128_out _ _ _ _ _ (by omega),
    store128_out _ _ _ _ _ (by omega)]

theorem drawRectSimd_colCells_in (s : Renderer) (x y width height : F32) (j : Fin 24) :
    (drawRectSimd s x y width height).colCells (s.pVertexColCurrent + j.val)
      = quadColors s.colorR s.colorG s.colorB 1 j := by
  fin_cases j <;>
    simp [drawRectSimd, drawRectAdvance, store256, _mm256_setr_ps, quadColors] <;> rfl

theorem drawRectSimd_colCells_out (s : Renderer) (x y width height : F32) (c : Nat)
    (h : c < s.pVertexColCurrent ∨ s.pVertexColCurrent + 24 ≤ c) :
    (drawRectSimd s x y width height).colCells c = s.colCells c := by
  simp only [drawRectSimd, drawRectAdvance]
  rw [store256_out _ _ _ _ _ (by omega), store256_out _ _ _ _ _ (by omega),
    store256_out _ _ _ _ _ (by omega)]

theorem drawRectScalar_posCells_in (s : Renderer) (x y width height : F32) (j : Fin 12) :
    (drawRectScalar s x y width height).posCells (s.pVertexPosCurrent + j.val)
      = quadFloats x y width height j := by
  fin_cases j <;>
    simp [drawRectScalar, drawRectAdvance, drawRectScalarPos, storeFloat, quadFloats,
      Function.update] <;> rfl

theorem drawRectScalar_posCells_out (s : Renderer) (x y width height : F32) (c : Nat)
    (h : c < s.pVertexPosCurrent ∨ s.pVertexPosCurrent + 12 ≤ c) :
    (drawRectScalar s x y width height).posCells c = s.posCells c := by
  simp only [drawRectScalar, drawRectAdvance, drawRectScalarPos, storeFloat]
  repeat rw [Function.update_noteq (by omega)]

theorem drawRectScalar_colCells_in (s : Renderer) (x y width height : F32) (j : Fin 24) :
    (drawRectScalar s x y width height).colCells (s.pVertexColCurrent + j.val)
      = quadColors s.colorR s.colorG s.colorB s.colorA j := by
  fin_cases j <;>
    simp [drawRectScalar, drawRectAdvance, drawRectScalarCol, storeFloat, quadColors,
      Function.update] <;> rfl

theorem drawRectScalar_colCells_out (s : Renderer) (x y width height : F32) (c : Nat)
    (h : c < s.pVertexColCurrent ∨ s.pVertexColCurrent + 24 ≤ c) :
    (drawRectScalar s x y width height).colCells c = s.colCells c := by
  simp only [drawRectScalar, drawRectAdvance, drawRectScalarCol, storeFloat]
  repeat rw [Function.update_noteq (by omega)]

theorem drawRect_eq (s : Renderer) (x y width height : F32) :
    drawRect s x y width height = drawRectSimd s x y width height := by
  simp [drawRect, USE_SIMD]

theorem drawRectSimd_posCells_eq_scalar (s : Renderer) (x y width height : F32) :
    (drawRectSimd s x y width height).posCells = (drawRectScalar s x y width height).posCells := by
  funext c
  by_cases h : c < s.pVertexPosCurrent ∨ s.pVertexPosCurrent + 12 ≤ c
  · rw [drawRectSimd_posCells_out s x y width height c h,
      drawRectScalar_posCells_out s x y width height c h]
  · have hj : c - s.pVertexPosCurrent < 12 := by omega
    have hc : c = s.pVertexPosCurrent + (⟨c - s.pVertexPosCurrent, hj⟩ : Fin 12).val := by
      simp only []
      omega
    rw [hc, drawRectSimd_posCells_in, drawRectScalar_posCells_in]

theorem vertexAt_drawRect (s : Renderer) (x y width height : F32) :
    vertexAt (drawRect s x y width height).posCells s.pVertexPosCurrent 0 = (x, y)
    ∧ vertexAt (drawRect s x y width height).posCells s.pVertexPosCurrent 1
        = (x + width, y + height)
    ∧ vertexAt (drawRect s x y width height).posCells s.pVertexPosCurrent 2 = (x, y + height)
    ∧ vertexAt (drawRect s x y width height).posCells s.pVertexPosCurrent 3 = (x, y)
    ∧ vertexAt (drawRect s x y width height).posCells s.pVertexPosCurrent 4 = (x + width, y)
    ∧ vertexAt (drawRect s x y width height).posCells s.pVertexPosCurrent 5
        = (x + width, y + height) := by
  have h := fun j => drawRectSimd_posCells_in s x y width height j
  have h0 := h 0
  have h1 := h 1
  have h2 := h 2
  have h3 := h 3
  have h4 := h 4
  have h5 := h 5
  have h6 := h 6
  have h7 := h 7
  have h8 := h 8
  have h9 := h 9
  have h10 := h 10
  have h11 := h 11
  simp only [quadFloats] at h0 h1 h2 h3 h4 h5 h6 h7 h8 h9 h10 h11
  rw [drawRect_eq]
  simp only [vertexAt]
  refine ⟨?_, ?_, ?_, ?_, ?_, ?_⟩ <;> refine Prod.ext ?_ ?_ <;> first
    | exact h0 | exact h1 | exact h2 | exact h3 | exact h4 | exact h5
    | exact h6 | exact h7 | exact h8 | exact h9 | exact h10 | exact h11

/-- C4: `drawRect` writes at the position write pointer the 12 floats
`(x,y) (x+w,y+h) (x,y+h) (x,y) (x+w,y) (x+w,y+h)` in this order and no other
position cell, where `x+w` and `y+h` are the binary32 sums `x + width` and
`y + height`; the SIMD and the scalar variant write the same position cells;
and for finite `x`, `y` and `width, height >= 0` all 6 vertices lie in
`[x, x+width] x [y, y+height]` with each of the four bounds attained. -/
theorem drawRect_quad (s : Renderer) (x y width height : F32) :
    (∀ j : Fin 12, (drawRect s x y width height).posCells (s.pVertexPosCurrent + j.val)
        = ![x, y, x + width, y + height, x, y + height, x, y, x + width, y,
            x + width, y + height] j)
    ∧ (∀ c, c < s.pVertexPosCurrent ∨ s.pVertexPosCurrent + 12 ≤ c →
        (drawRect s x y width height).posCells c = s.posCells c)
    ∧ (drawRectSimd s x y width height).posCells = (drawRectScalar s x y width height).posCells
    ∧ (x.isFinite = true → y.isFinite = true →
        F32.le 0 width = true → F32.le 0 height = true →
        (∀ k, k < 6 →
          F32.le x (vertexAt (drawRect s x y width height).posCells s.pVertexPosCurrent k).1
            = true
          ∧ F32.le (vertexAt (drawRect s x y width height).posCells s.pVertexPosCurrent k).1
              (x + width) = true
          ∧ F32.le y (vertexAt (drawRect s x y width height).posCells s.pVertexPosCurrent k).2
            = true
          ∧ F32.le (vertexAt (drawRect s x y width height).posCells s.pVertexPosCurrent k).2
              (y + height) = true)
        ∧ (vertexAt (drawRect s x y width height).posCells s.pVertexPosCurrent 0).1 = x
        ∧ (vertexAt (drawRect s x y width height).posCells s.pVertexPosCurrent 1).1 = x + width
        ∧ (vertexAt (drawRect s x y width height).posCells s.pVertexPosCurrent 0).2 = y
        ∧ (vertexAt (drawRect s x y width height).posCells s.pVertexPosCurrent 1).2
            = y + height) := by
  obtain ⟨v0, v1, v2, v3, v4, v5⟩ := vertexAt_drawRect s x y width height
  refine ⟨fun j => ?_, fun c hc => ?_, drawRectSimd_posCells_eq_scalar s x y width height,
    fun hx hy hw hh => ⟨fun k hk => ?_, ?_, ?_, ?_, ?_⟩⟩
  · rw [drawRect_eq]
    exact drawRectSimd_posCells_in s x y width height j
  · rw [drawRect_eq]
    exact drawRectSimd_posCells_out s x y width height c hc
  · obtain ⟨xw, xww⟩ := F32.le_add_self x width hx hw
    obtain ⟨yh, yhh⟩ := F32.le_add_self y height hy hh
    have xx : F32.le x x = true := F32.le_self x (by rintro rfl; simp [F32.isFinite] at hx)
    have yy : F32.le y y = true := F32.le_self y (by rintro rfl; simp [F32.isFinite] at hy)
    interval_cases k
    · rw [v0]; exact ⟨xx, xw, yy, yh⟩
    · rw [v1]; exact ⟨xw, xww, yh, yhh⟩
    · rw [v2]; exact ⟨xx, xw, yh, yhh⟩
    · rw [v3]; exact ⟨xx, xw, yy, yh⟩
    · rw [v4]; exact ⟨xw, xww, yy, yh⟩
    · rw [v5]; exact ⟨xw, xww, yh, yhh⟩
  · rw [v0]
  · rw [v1]
  · rw [v0]
  · rw [v1]

/-- C4 at the rectangle `(10, 10, 2, 2)`: the 6 vertices span `[10,12] x [10,12]`. -/
theorem drawRect_quad_witness :
    (∀ k, k < 6 →
      F32.le 10 (vertexAt (drawRect blankRenderer 10 10 2 2).posCells 0 k).1 = true
      ∧ F32.le (vertexAt (drawRect blankRenderer 10 10 2 2).posCells 0 k).1 12 = true
      ∧ F32.le 10 (vertexAt (drawRect blankRenderer 10 10 2 2).posCells 0 k).2 = true
      ∧ F32.le (vertexAt (drawRect blankRenderer 10 10 2 2).posCells 0 k).2 12 = true)
    ∧ (vertexAt (drawRect blankRenderer 10 10 2 2).posCells 0 0).1 = 10
    ∧ (vertexAt (drawRect blankRenderer 10 10 2 2).posCells 0 1).1 = 12
    ∧ (vertexAt (drawRect blankRenderer 10 10 2 2).posCells 0 0).2 = 10
    ∧ (vertexAt (drawRect blankRenderer 10 10 2 2).posCells 0 1).2 = 12 := by
  have h := (drawRect_quad blankRenderer 10 10 2 2).2.2.2 (by decide) (by decide)
    (by decide) (by decide)
  have e : (10 : F32) + 2 = 12 := by decide
  rw [e] at h
  exact h

theorem colorAt_drawRectSimd (s : Renderer) (x y width height : F32) (k : Nat) (hk : k < 6) :
    colorAt (drawRectSimd s x y width height).colCells s.pVertexColCurrent k
      = (s.colorR, s.colorG, s.colorB, 1) := by
  have h := fun j => drawRectSimd_colCells_in s x y width height j
  simp only [colorAt]
  interval_cases k
  · exact Prod.ext (h 0) (Prod.ext (h 1) (Prod.ext (h 2) (h 3)))
  · exact Prod.ext (h 4) (Prod.ext (h 5) (Prod.ext (h 6) (h 7)))
  · exact Prod.ext (h 8) (Prod.ext (h 9) (Prod.ext (h 10) (h 11)))
  · exact Prod.ext (h 12) (Prod.ext (h 13) (Prod.ext (h 14) (h 15)))
  · exact Prod.ext (h 16) (Prod.ext (h 17) (Prod.ext (h 18) (h 19)))
  · exact Prod.ext (h 20) (Prod.ext (h 21) (Prod.ext (h 22) (h 23)))

theorem colorAt_drawRectScalar (s : Renderer) (x y width height : F32) (k : Nat) (hk : k < 6) :
    colorAt (drawRectScalar s x y width height).colCells s.pVertexColCurrent k
      = (s.colorR, s.colorG, s.colorB, s.colorA) := by
  have h := fun j => drawRectScalar_colCells_in s x y width height j
  simp only [colorAt]
  interval_cases k
  · exact Prod.ext (h 0) (Prod.ext (h 1) (Prod.ext (h 2) (h 3)))
  · exact Prod.ext (h 4) (Prod.ext (h 5) (Prod.ext (h 6) (h 7)))
  · exact Prod.ext (h 8) (Prod.ext (h 9) (Prod.ext (h 10) (h 11)))
  · exact Prod.ext (h 12) (Prod.ext (h 13) (Prod.ext (h 14) (h 15)))
  · exact Prod.ext (h 16) (Prod.ext (h 17) (Prod.ext (h 18) (h 19)))
  · exact Prod.ext (h 20) (Prod.ext (h 21) (Prod.ext (h 22) (h 23)))

/-- C5 (the code at a colour with alpha `0.5`): after `setColor(1, 0, 0, 0.5)`
the compiled `drawRect` writes six colour entries `(1, 0, 0, 1)`, not the
current colour `(1, 0, 0, 0.5)`, while the scalar variant writes
`(1, 0, 0, 0.5)`; after any `setColor(r, g, b, a)` the compiled `drawRect`
writes six entries `(r, g, b, 1)`. -/
theorem drawRect_alpha_dropped :
    (setColor blankRenderer 1 0 0 (F32.ofDec false 1 2)).colorA = F32.ofDec false 1 2
    ∧ (∀ k, k < 6 →
        colorAt (drawRect (setColor blankRenderer 1 0 0 (F32.ofDec false 1 2)) 10 10 2 2).colCells 0 k
          = (1, 0, 0, 1))
    ∧ (∀ k, k < 6 →
        colorAt (drawRect (setColor blankRenderer 1 0 0 (F32.ofDec false 1 2)) 10 10 2 2).colCells 0 k
          ≠ (1, 0, 0, F32.ofDec false 1 2))
    ∧ (∀ k, k < 6 →
        colorAt (drawRectScalar (setColor blankRenderer 1 0 0 (F32.ofDec false 1 2)) 10 10 2 2).colCells 0 k
          = (1, 0, 0, F32.ofDec false 1 2))
    ∧ (∀ (s : Renderer) (r g b a x y width height : F32) (k : Nat), k < 6 →
        colorAt (drawRect (setColor s r g b a) x y width height).colCells
          s.pVertexColCurrent k = (r, g, b, 1)) := by
  have hs : ∀ k, k < 6 →
      colorAt (drawRect (setColor blankRenderer 1 0 0 (F32.ofDec false 1 2)) 10 10 2 2).colCells 0 k
        = (1, 0, 0, 1) := by
    intro k hk
    rw [drawRect_eq]
    exact colorAt_drawRectSimd (setColor blankRenderer 1 0 0 (F32.ofDec false 1 2)) 10 10 2 2 k hk
  refine ⟨rfl, hs, fun k hk => ?_, fun k hk => ?_, fun s r g b a x y width height k hk => ?_⟩
  · rw [hs k hk]
    intro h
    have h4 : (1 : F32) = F32.ofDec false 1 2 := congrArg (fun t => t.2.2.2) h
    exact absurd h4 (by decide)
  · exact colorAt_drawRectScalar (setColor blankRenderer 1 0 0 (F32.ofDec false 1 2)) 10 10 2 2 k hk
  · rw [drawRect_eq]
    exact colorAt_drawRectSimd (setColor s r g b a) x y width height k hk

theorem drawRect_cursor (s : Renderer) (x y width height : F32) :
    (drawRect s x y width height).pVertexPosCurrent = s.pVertexPosCurrent + 12
    ∧ (drawRect s x y width height).pVertexColCurrent = s.pVertexColCurrent + 24
    ∧ (drawRect s x y width height).pVertexPosBufferData = s.pVertexPosBufferData
    ∧ (drawRect s x y width height).pVertexColBufferData = s.pVertexColBufferData
    ∧ (drawRect s x y width height).bufferDataIndex = (s.bufferDataIndex + 1) % SIZE_MAX1 := by
  simp [drawRect, USE_SIMD, drawRectSimd, drawRectAdvance, sizeofFloat]

theorem runCmds_cursor (cmds : List DrawCmd) (s : Renderer)
    (h : s.bufferDataIndex + countDraws cmds < SIZE_MAX1) :
    (runCmds s cmds).bufferDataIndex = s.bufferDataIndex + countDraws cmds
    ∧ (runCmds s cmds).pVertexPosCurrent = s.pVertexPosCurrent + 12 * countDraws cmds
    ∧ (runCmds s cmds).pVertexColCurrent = s.pVertexColCurrent + 24 * countDraws cmds
    ∧ (runCmds s cmds).pVertexPosBufferData = s.pVertexPosBufferData
    ∧ (runCmds s cmds).pVertexColBufferData = s.pVertexColBufferData := by
  induction cmds generalizing s with
  | nil => simp [runCmds, countDraws]
  | cons cmd cmds ih =>
    cases cmd with
    | setColor r g b a =>
      have := ih (setColor s r g b a) (by simpa [setColor, countDraws] using h)
      simpa [runCmds, runCmd, countDraws, setColor] using this
    | drawRect x y width height =>
      obtain ⟨d1, d2, d3, d4, d5⟩ := drawRect_cursor s x y width height
      simp only [countDraws] at h
      have hlt : (s.bufferDataIndex + 1) % SIZE_MAX1 = s.bufferDataIndex + 1 :=
        Nat.mod_eq_of_lt (by omega)
      rw [hlt] at d5
      obtain ⟨i1, i2, i3, i4, i5⟩ := ih (drawRect s x y width height) (by rw [d5]; omega)
      simp only [runCmds, List.foldl_cons, runCmd, countDraws] at i1 i2 i3 i4 i5 ⊢
      rw [i1, i2, i3, i4, i5, d1, d2, d3, d4, d5]
      refine ⟨by omega, by omega, by omega, rfl, rfl⟩

/-- C6: from the Empty state, a call sequence with `k <= SPRITE_COUNT` calls
of `drawRect` and no flush leaves `bufferDataIndex = k` and the position and
colour write pointers 12 * k and 24 * k floats past their bases; and on any
renderer, whatever its fill level, `flush` and both backends set
`bufferDataIndex` to 0 and both write pointers to the bases. -/
theorem drawRect_flush_cursor (s : Renderer) (cmds : List DrawCmd)
    (h0 : s.bufferDataIndex = 0)
    (hp : s.pVertexPosCurrent = s.pVertexPosBufferData)
    (hc : s.pVertexColCurrent = s.pVertexColBufferData)
    (hk : countDraws cmds ≤ SPRITE_COUNT) :
    ((runCmds s cmds).bufferDataIndex = countDraws cmds
      ∧ (runCmds s cmds).pVertexPosCurrent = s.pVertexPosBufferData + 12 * countDraws cmds
      ∧ (runCmds s cmds).pVertexColCurrent = s.pVertexColBufferData + 24 * countDraws cmds)
    ∧ ((flush (runCmds s cmds)).bufferDataIndex = 0
      ∧ (flush (runCmds s cmds)).pVertexPosCurrent = s.pVertexPosBufferData
      ∧ (flush (runCmds s cmds)).pVertexColCurrent = s.pVertexColBufferData)
    ∧ ∀ t : Renderer,
        ((flush t).bufferDataIndex = 0
          ∧ (flush t).pVertexPosCurrent = t.pVertexPosBufferData
          ∧ (flush t).pVertexColCurrent = t.pVertexColBufferData)
        ∧ ((flushBufferData0 t).bufferDataIndex = 0
          ∧ (flushBufferData0 t).pVertexPosCurrent = t.pVertexPosBufferData
          ∧ (flushBufferData0 t).pVertexColCurrent = t.pVertexColBufferData)
        ∧ ((flushBufferData1 t).bufferDataIndex = 0
          ∧ (flushBufferData1 t).pVertexPosCurrent = t.pVertexPosBufferData
          ∧ (flushBufferData1 t).pVertexColCurrent = t.pVertexColBufferData) := by
  have hlt : s.bufferDataIndex + countDraws cmds < SIZE_MAX1 := by
    rw [h0]
    have : SPRITE_COUNT < SIZE_MAX1 := by decide
    omega
  obtain ⟨r1, r2, r3, r4, r5⟩ := runCmds_cursor cmds s hlt
  have hflush : ∀ t : Renderer,
      ((flush t).bufferDataIndex = 0
        ∧ (flush t).pVertexPosCurrent = t.pVertexPosBufferData
        ∧ (flush t).pVertexColCurrent = t.pVertexColBufferData)
      ∧ ((flushBufferData0 t).bufferDataIndex = 0
        ∧ (flushBufferData0 t).pVertexPosCurrent = t.pVertexPosBufferData
        ∧ (flushBufferData0 t).pVertexColCurrent = t.pVertexColBufferData)
      ∧ ((flushBufferData1 t).bufferDataIndex = 0
        ∧ (flushBufferData1 t).pVertexPosCurrent = t.pVertexPosBufferData
        ∧ (flushBufferData1 t).pVertexColCurrent = t.pVertexColBufferData) := by
    intro t
    simp [flush, USE_DYNAMIC_STREAMING, flushBufferData0, flushBufferData1]
  refine ⟨⟨?_, ?_, ?_⟩, ?_, hflush⟩
  · rw [r1, h0, Nat.zero_add]
  · rw [r2, hp]
  · rw [r3, hc]
  · obtain ⟨⟨f1, f2, f3⟩, -⟩ := hflush (runCmds s cmds)
    exact ⟨f1, f2.trans r4, f3.trans r5⟩

/-- C6 at three calls of `drawRect` with a `setColor` in between. -/
theorem drawRect_flush_cursor_witness :
    ((runCmds blankRenderer [DrawCmd.drawRect 10 10 2 2, DrawCmd.setColor 1 0 0 1,
        DrawCmd.drawRect 0 0 2 2, DrawCmd.drawRect 5 7 2 2]).bufferDataIndex = 3
      ∧ (runCmds blankRenderer [DrawCmd.drawRect 10 10 2 2, DrawCmd.setColor 1 0 0 1,
        DrawCmd.drawRect 0 0 2 2, DrawCmd.drawRect 5 7 2 2]).pVertexPosCurrent = 36
      ∧ (runCmds blankRenderer [DrawCmd.drawRect 10 10 2 2, DrawCmd.setColor 1 0 0 1,
        DrawCmd.drawRect 0 0 2 2, DrawCmd.drawRect 5 7 2 2]).pVertexColCurrent = 72)
    ∧ ((flush (runCmds blankRenderer [DrawCmd.drawRect 10 10 2 2, DrawCmd.setColor 1 0 0 1,
        DrawCmd.drawRect 0 0 2 2, DrawCmd.drawRect 5 7 2 2])).bufferDataIndex = 0
      ∧ (flush (runCmds blankRenderer [DrawCmd.drawRect 10 10 2 2, DrawCmd.setColor 1 0 0 1,
        DrawCmd.drawRect 0 0 2 2, DrawCmd.drawRect 5 7 2 2])).pVertexPosCurrent = 0
      ∧ (flush (runCmds blankRenderer [DrawCmd.drawRect 10 10 2 2, DrawCmd.setColor 1 0 0 1,
        DrawCmd.drawRect 0 0 2 2, DrawCmd.drawRect 5 7 2 2])).pVertexColCurrent = 0) :=
  ⟨(drawRect_flush_cursor blankRenderer _ rfl rfl rfl (by decide)).1,
    (drawRect_flush_cursor blankRenderer _ rfl rfl rfl (by decide)).2.1⟩

theorem sizeMul_small (a b : Nat) (h : a * b < 2 ^ 64) : sizeMul a b = a * b := by
  unfold sizeMul SIZE_MAX1
  exact Nat.mod_eq_of_lt h

theorem toGLsizeiptr_small (n : Nat) (h : n < 2 ^ 63) : toGLsizeiptr n = (n : Int) := by
  have h1 : n % 2 ^ 64 = n := Nat.mod_eq_of_lt (by omega)
  unfold toGLsizeiptr
  rw [h1, if_pos h]

theorem toGLsizei_small (n : Nat) (h : n < 2 ^ 31) : toGLsizei n = (n : Int) := by
  have h1 : n % 2 ^ 32 = n := Nat.mod_eq_of_lt (by omega)
  unfold toGLsizei
  rw [h1, if_pos h]

/-- C7: at a fill level `n = bufferDataIndex <= SPRITE_COUNT` the copy backend
binds the position buffer, uploads from offset 0 `4 * 2 * 6 * n` bytes read
at the base of the position region, binds the colour buffer, uploads from
offset 0 `4 * 4 * 6 * n` bytes read at the base of the colour region and draws
`n * 6` vertices from vertex 0; the streaming backend (the compiled `flush`)
issues only that draw call; and the two upload sizes are `vpSize` and
`vcSize` only when `n = SPRITE_COUNT`. -/
theorem flush_extent (s : Renderer) (h : s.bufferDataIndex ≤ SPRITE_COUNT) :
    (flushBufferData0 s).glCalls = s.glCalls ++
      [GLCall.glBindBuffer GL_ARRAY_BUFFER s.vertexPosVBO,
       GLCall.glBufferSubData GL_ARRAY_BUFFER 0 ((4 * 2 * 6 * s.bufferDataIndex : Nat) : Int)
         s.pVertexPosBufferData,
       GLCall.glBindBuffer GL_ARRAY_BUFFER s.vertexColVBO,
       GLCall.glBufferSubData GL_ARRAY_BUFFER 0 ((4 * 4 * 6 * s.bufferDataIndex : Nat) : Int)
         s.pVertexColBufferData,
       GLCall.glDrawArrays GL_TRIANGLES 0 ((s.bufferDataIndex * 6 : Nat) : Int)]
    ∧ (flushBufferData1 s).glCalls = s.glCalls ++
      [GLCall.glDrawArrays GL_TRIANGLES 0 ((s.bufferDataIndex * 6 : Nat) : Int)]
    ∧ (flush s).glCalls = s.glCalls ++
      [GLCall.glDrawArrays GL_TRIANGLES 0 ((s.bufferDataIndex * 6 : Nat) : Int)]
    ∧ (4 * 2 * 6 * s.bufferDataIndex = vpSize ↔ s.bufferDataIndex = SPRITE_COUNT)
    ∧ (4 * 4 * 6 * s.bufferDataIndex = vcSize ↔ s.bufferDataIndex = SPRITE_COUNT) := by
  have hn : s.bufferDataIndex ≤ 1000000 := h
  have e1 : sizeMul sizeofFloat s.bufferDataIndex = 4 * s.bufferDataIndex :=
    sizeMul_small _ _ (by simp only [sizeofFloat]; omega)
  have e2 : sizeMul (4 * s.bufferDataIndex) vertPerQuad = 4 * s.bufferDataIndex * 6 :=
    sizeMul_small _ _ (by simp only [vertPerQuad]; omega)
  have e3 : sizeMul (4 * s.bufferDataIndex * 6) 2 = 4 * 2 * 6 * s.bufferDataIndex := by
    rw [sizeMul_small _ _ (by omega)]
    omega
  have e4 : sizeMul (4 * s.bufferDataIndex * 6) 4 = 4 * 4 * 6 * s.bufferDataIndex := by
    rw [sizeMul_small _ _ (by omega)]
    omega
  have e5 : sizeMul s.bufferDataIndex vertPerQuad = s.bufferDataIndex * 6 :=
    sizeMul_small _ _ (by simp only [vertPerQuad]; omega)
  have p1 : toGLsizeiptr (4 * 2 * 6 * s.bufferDataIndex)
      = ((4 * 2 * 6 * s.bufferDataIndex : Nat) : Int) := toGLsizeiptr_small _ (by omega)
  have p2 : toGLsizeiptr (4 * 4 * 6 * s.bufferDataIndex)
      = ((4 * 4 * 6 * s.bufferDataIndex : Nat) : Int) := toGLsizeiptr_small _ (by omega)
  have p3 : toGLsizei (s.bufferDataIndex * 6) = ((s.bufferDataIndex * 6 : Nat) : Int) :=
    toGLsizei_small _ (by omega)
  refine ⟨?_, ?_, ?_, ?_, ?_⟩
  · simp only [flushBufferData0, e1, e2, e3, e4, e5, p1, p2, p3]
  · simp only [flushBufferData1, e5, p3]
  · simp only [flush, USE_DYNAMIC_STREAMING, if_true, flushBufferData1, e5, p3]
  · simp only [vpSize, SPRITE_COUNT, sizeofFloat]
    omega
  · simp only [vcSize, SPRITE_COUNT, sizeofFloat]
    omega

/-- C7 at the fill levels 1, 100 and `SPRITE_COUNT`: the upload sizes are 48
and 96, 4800 and 9600, 48000000 and 96000000 bytes and the draws cover 6, 600
and 6000000 vertices. -/
theorem flush_extent_witness :
    ((flushBufferData0 (filledRenderer 1)).glCalls =
        [GLCall.glBindBuffer GL_ARRAY_BUFFER 1, GLCall.glBufferSubData GL_ARRAY_BUFFER 0 48 0,
         GLCall.glBindBuffer GL_ARRAY_BUFFER 2, GLCall.glBufferSubData GL_ARRAY_BUFFER 0 96 0,
         GLCall.glDrawArrays GL_TRIANGLES 0 6]
      ∧ (flushBufferData1 (filledRenderer 1)).glCalls = [GLCall.glDrawArrays GL_TRIANGLES 0 6])
    ∧ ((flushBufferData0 (filledRenderer 100)).glCalls =
        [GLCall.glBindBuffer GL_ARRAY_BUFFER 1, GLCall.glBufferSubData GL_ARRAY_BUFFER 0 4800 0,
         GLCall.glBindBuffer GL_ARRAY_BUFFER 2, GLCall.glBufferSubData GL_ARRAY_BUFFER 0 9600 0,
         GLCall.glDrawArrays GL_TRIANGLES 0 600]
      ∧ (flushBufferData1 (filledRenderer 100)).glCalls
          = [GLCall.glDrawArrays GL_TRIANGLES 0 600])
    ∧ ((flushBufferData0 (filledRenderer SPRITE_COUNT)).glCalls =
        [GLCall.glBindBuffer GL_ARRAY_BUFFER 1,
         GLCall.glBufferSubData GL_ARRAY_BUFFER 0 48000000 0,
         GLCall.glBindBuffer GL_ARRAY_BUFFER 2,
         GLCall.glBufferSubData GL_ARRAY_BUFFER 0 96000000 0,
         GLCall.glDrawArrays GL_TRIANGLES 0 6000000]
      ∧ (flushBufferData1 (filledRenderer SPRITE_COUNT)).glCalls
          = [GLCall.glDrawArrays GL_TRIANGLES 0 6000000]) := by
  have h1 := flush_extent (filledRenderer 1) (by decide)
  have h2 := flush_extent (filledRenderer 100) (by decide)
  have h3 := flush_extent (filledRenderer SPRITE_COUNT) (by decide)
  exact ⟨⟨h1.1, h1.2.1⟩, ⟨h2.1, h2.2.1⟩, ⟨h3.1, h3.2.1⟩⟩

theorem setColor_fields (s : Renderer) (r g b a : F32) :
    (setColor s r g b a).colorR = r ∧ (setColor s r g b a).colorG = g
    ∧ (setColor s r g b a).colorB = b ∧ (setColor s r g b a).colorA = a
    ∧ (setColor s r g b a).bufferDataIndex = s.bufferDataIndex
    ∧ (setColor s r g b a).pVertexPosCurrent = s.pVertexPosCurrent
    ∧ (setColor s r g b a).pVertexColCurrent = s.pVertexColCurrent
    ∧ (setColor s r g b a).pVertexPosBufferData = s.pVertexPosBufferData
    ∧ (setColor s r g b a).pVertexColBufferData = s.pVertexColBufferData
    ∧ (setColor s r g b a).posCells = s.posCells
    ∧ (setColor s r g b a).colCells = s.colCells := by
  simp [setColor]

/-- The cursor after `n` iterations of the loop of `renderParticles`. -/
theorem renderParticlesLoop_cursor (p : Particles) (s : Renderer) (n : Nat)
    (h : s.bufferDataIndex + n < SIZE_MAX1) :
    (renderParticlesLoop p s n).bufferDataIndex = s.bufferDataIndex + n
    ∧ (renderParticlesLoop p s n).pVertexPosCurrent = s.pVertexPosCurrent + 12 * n
    ∧ (renderParticlesLoop p s n).pVertexColCurrent = s.pVertexColCurrent + 24 * n
    ∧ (renderParticlesLoop p s n).pVertexPosBufferData = s.pVertexPosBufferData
    ∧ (renderParticlesLoop p s n).pVertexColBufferData = s.pVertexColBufferData := by
  induction n with
  | zero => simp [renderParticlesLoop]
  | succ n ih =>
    obtain ⟨i1, i2, i3, i4, i5⟩ := ih (by omega)
    obtain ⟨-, -, -, -, c5, c6, c7, c8, c9, -, -⟩ :=
      setColor_fields (renderParticlesLoop p s n) (p.colorR n) (p.colorG n) (p.colorB n) 1
    obtain ⟨d1, d2, d3, d4, d5⟩ :=
      drawRect_cursor (setColor (renderParticlesLoop p s n) (p.colorR n) (p.colorG n)
        (p.colorB n)) (p.positionX n) (p.positionY n) 2 2
    simp only [renderParticlesLoop]
    rw [d1, d2, d3, d4, d5, c5, c6, c7, c8, c9, i1, i2, i3, i4, i5]
    refine ⟨?_, by omega, by omega, rfl, rfl⟩
    rw [Nat.mod_eq_of_lt (by omega)]
    omega

/-- The cells after `n` iterations of the loop of `renderParticles`. -/
theorem renderParticlesLoop_cells (p : Particles) (s : Renderer) (n : Nat)
    (h : s.bufferDataIndex + n < SIZE_MAX1) :
    (∀ i, i < n → ∀ j : Fin 12,
        (renderParticlesLoop p s n).posCells (s.pVertexPosCurrent + 12 * i + j.val)
          = quadFloats (p.positionX i) (p.positionY i) 2 2 j)
    ∧ (∀ i, i < n → ∀ j : Fin 24,
        (renderParticlesLoop p s n).colCells (s.pVertexColCurrent + 24 * i + j.val)
          = quadColors (p.colorR i) (p.colorG i) (p.colorB i) 1 j)
    ∧ (∀ c, c < s.pVertexPosCurrent ∨ s.pVertexPosCurrent + 12 * n ≤ c →
        (renderParticlesLoop p s n).posCells c = s.posCells c)
    ∧ (∀ c, c < s.pVertexColCurrent ∨ s.pVertexColCurrent + 24 * n ≤ c →
        (renderParticlesLoop p s n).colCells c = s.colCells c) := by
  induction n with
  | zero =>
    refine ⟨fun i hi => ?_, fun i hi => ?_, fun c _ => rfl, fun c _ => rfl⟩ <;> omega
  | succ n ih =>
    obtain ⟨ip, ic, iop, ioc⟩ := ih (by omega)
    obtain ⟨-, k2, k3, -, -⟩ := renderParticlesLoop_cursor p s n (by omega)
    obtain ⟨c1, c2, c3, -, -, c6, c7, -, -, c10, c11⟩ :=
      setColor_fields (renderParticlesLoop p s n) (p.colorR n) (p.colorG n) (p.colorB n) 1
    have hpin := drawRectSimd_posCells_in
      (setColor (renderParticlesLoop p s n) (p.colorR n) (p.colorG n) (p.colorB n))
      (p.positionX n) (p.positionY n) 2 2
    have hpout := drawRectSimd_posCells_out
      (setColor (renderParticlesLoop p s n) (p.colorR n) (p.colorG n) (p.colorB n))
      (p.positionX n) (p.positionY n) 2 2
    have hcin := drawRectSimd_colCells_in
      (setColor (renderParticlesLoop p s n) (p.colorR n) (p.colorG n) (p.colorB n))
      (p.positionX n) (p.positionY n) 2 2
    have hcout := drawRectSimd_colCells_out
      (setColor (renderParticlesLoop p s n) (p.colorR n) (p.colorG n) (p.colorB n))
      (p.positionX n) (p.positionY n) 2 2
    rw [c6, k2] at hpin hpout
    rw [c7, k3] at hcin hcout
    rw [c1, c2, c3] at hcin
    rw [c10] at hpout
    rw [c11] at hcout
    simp only [renderParticlesLoop, drawRect_eq]
    refine ⟨fun i hi j => ?_, fun i hi j => ?_, fun c hc => ?_, fun c hc => ?_⟩
    · by_cases hin : i = n
      · rw [hin]
        exact hpin j
      · rw [hpout _ (by omega)]
        exact ip i (by omega) j
    · by_cases hin : i = n
      · rw [hin]
        exact hcin j
      · rw [hcout _ (by omega)]
        exact ic i (by omega) j
    · rw [hpout _ (by omega)]
      exact iop c (by omega)
    · rw [hcout _ (by omega)]
      exact ioc c (by omega)

/-- C10: on a store with `count = n <= SPRITE_COUNT` and an Empty batch,
`renderParticles` leaves `bufferDataIndex = n`; for every `i < n` the 12
position floats of quad `i` are those of the rectangle
`(positionX[i], positionY[i], 2, 2)`, which are the floats `drawRect` writes
for it, and the 6 colour entries of quad `i` are
`(colorR[i], colorG[i], colorB[i], 1)`; and no position or colour cell
outside the first `n` quads is changed. -/
theorem renderParticles_contents (p : Particles) (s : Renderer)
    (hn : p.count ≤ SPRITE_COUNT) (h0 : s.bufferDataIndex = 0)
    (hp : s.pVertexPosCurrent = s.pVertexPosBufferData)
    (hc : s.pVertexColCurrent = s.pVertexColBufferData) :
    (renderParticles p s).bufferDataIndex = p.count
    ∧ (∀ i, i < p.count → ∀ j : Fin 12,
        (renderParticles p s).posCells (s.pVertexPosBufferData + 12 * i + j.val)
          = ![p.positionX i, p.positionY i, p.positionX i + 2, p.positionY i + 2,
              p.positionX i, p.positionY i + 2, p.positionX i, p.positionY i,
              p.positionX i + 2, p.positionY i, p.positionX i + 2, p.positionY i + 2] j
        ∧ (renderParticles p s).posCells (s.pVertexPosBufferData + 12 * i + j.val)
          = (drawRect s (p.positionX i) (p.positionY i) 2 2).posCells
              (s.pVertexPosCurrent + j.val))
    ∧ (∀ i, i < p.count → ∀ k, k < 6 →
        colorAt (renderParticles p s).colCells (s.pVertexColBufferData + 24 * i) k
          = (p.colorR i, p.colorG i, p.colorB i, 1))
    ∧ (∀ c, c < s.pVertexPosBufferData ∨ s.pVertexPosBufferData + 12 * p.count ≤ c →
        (renderParticles p s).posCells c = s.posCells c)
    ∧ (∀ c, c < s.pVertexColBufferData ∨ s.pVertexColBufferData + 24 * p.count ≤ c →
        (renderParticles p s).colCells c = s.colCells c) := by
  have hlt : s.bufferDataIndex + p.count < SIZE_MAX1 := by
    rw [h0]
    have : SPRITE_COUNT < SIZE_MAX1 := by decide
    omega
  obtain ⟨k1, -, -, -, -⟩ := renderParticlesLoop_cursor p s p.count hlt
  obtain ⟨cp, cc, op, oc⟩ := renderParticlesLoop_cells p s p.count hlt
  rw [hp] at cp op
  rw [hc] at cc oc
  refine ⟨?_, fun i hi j => ⟨cp i hi j, ?_⟩, fun i hi k hk => ?_, op, oc⟩
  · rw [renderParticles, k1, h0, Nat.zero_add]
  · rw [drawRect_eq, drawRectSimd_posCells_in]
    exact cp i hi j
  · have h := cc i hi
    simp only [renderParticles, colorAt]
    interval_cases k
    · exact Prod.ext (h 0) (Prod.ext (h 1) (Prod.ext (h 2) (h 3)))
    · exact Prod.ext (h 4) (Prod.ext (h 5) (Prod.ext (h 6) (h 7)))
    · exact Prod.ext (h 8) (Prod.ext (h 9) (Prod.ext (h 10) (h 11)))
    · exact Prod.ext (h 12) (Prod.ext (h 13) (Prod.ext (h 14) (h 15)))
    · exact Prod.ext (h 16) (Prod.ext (h 17) (Prod.ext (h 18) (h 19)))
    · exact Prod.ext (h 20) (Prod.ext (h 21) (Prod.ext (h 22) (h 23)))

/-- C10 on two particles: two quads are batched, the second one starts at
position cell 12 with the vertex `(5, 6)` and has the colour `(0, 1/2, 1, 1)`,
and position cell 24 is still zero. -/
theorem renderParticles_contents_witness :
    (renderParticles pairStore blankRenderer).bufferDataIndex = 2
    ∧ vertexAt (renderParticles pairStore blankRenderer).posCells 12 0 = (5, 6)
    ∧ colorAt (renderParticles pairStore blankRenderer).colCells 24 0 = (0, F32.ofDec false 1 2, 1, 1)
    ∧ (renderParticles pairStore blankRenderer).posCells 24 = 0 := by
  obtain ⟨h1, h2, h3, h4, -⟩ :=
    renderParticles_contents pairStore blankRenderer (by decide) rfl rfl rfl
  refine ⟨h1, Prod.ext ?_ ?_, ?_, ?_⟩
  · exact ((h2 1 (by decide) 0).1).trans (by simp [pairStore])
  · exact ((h2 1 (by decide) 1).1).trans (by simp [pairStore])
  · exact (h3 1 (by decide) 0 (by decide)).trans (by simp [pairStore])
  · exact h4 24 (Or.inr (by decide))

theorem handleEvent_renderer (a : App) (event : Event) :
    (handleEvent a event).renderer = a.renderer := by
  cases event with
  | quit => rfl
  | other => rfl
  | keyDown sym =>
    simp only [handleEvent]
    split_ifs <;> rfl

theorem handleEvent_count (a : App) (event : Event) :
    a.pParticles.count ≤ (handleEvent a event).pParticles.count
    ∧ (10000 ∣ a.pParticles.count → a.pParticles.count ≤ SPRITE_COUNT →
        10000 ∣ (handleEvent a event).pParticles.count
        ∧ (handleEvent a event).pParticles.count ≤ SPRITE_COUNT) := by
  cases event with
  | quit => exact ⟨le_refl _, fun h1 h2 => ⟨h1, h2⟩⟩
  | other => exact ⟨le_refl _, fun h1 h2 => ⟨h1, h2⟩⟩
  | keyDown sym =>
    simp only [handleEvent]
    split_ifs with hesc hlt
    · exact ⟨le_refl _, fun h1 h2 => ⟨h1, h2⟩⟩
    · simp only [SPRITE_COUNT, SIZE_MAX1] at hlt ⊢
      have hmod : (a.pParticles.count + 10000) % 2 ^ 64 = a.pParticles.count + 10000 :=
        Nat.mod_eq_of_lt (by omega)
      rw [hmod]
      refine ⟨by omega, fun h1 _ => ⟨?_, ?_⟩⟩
      · exact Dvd.dvd.add h1 (dvd_refl _)
      · omega
    · exact ⟨le_refl _, fun h1 h2 => ⟨h1, h2⟩⟩

theorem pollEvents_facts (events : List Event) (a : App) :
    (events.foldl handleEvent a).renderer = a.renderer
    ∧ a.pParticles.count ≤ (events.foldl handleEvent a).pParticles.count
    ∧ (10000 ∣ a.pParticles.count → a.pParticles.count ≤ SPRITE_COUNT →
        10000 ∣ (events.foldl handleEvent a).pParticles.count
        ∧ (events.foldl handleEvent a).pParticles.count ≤ SPRITE_COUNT) := by
  induction events generalizing a with
  | nil => exact ⟨rfl, le_refl _, fun h1 h2 => ⟨h1, h2⟩⟩
  | cons e es ih =>
    obtain ⟨i1, i2, i3⟩ := ih (handleEvent a e)
    obtain ⟨c1, c2⟩ := handleEvent_count a e
    simp only [List.foldl_cons]
    refine ⟨i1.trans (handleEvent_renderer a e), c1.trans i2, fun h1 h2 => ?_⟩
    obtain ⟨d1, d2⟩ := c2 h1 h2
    exact i3 d1 d2

theorem updateParticles_count (p : Particles) : (updateParticles p).count = p.count := by
  rw [updateParticles_eq]
  exact (updateParticlesSimd_sameOutside p).1

theorem flush_reset (t : Renderer) :
    (flush t).bufferDataIndex = 0
    ∧ (flush t).pVertexPosCurrent = t.pVertexPosBufferData
    ∧ (flush t).pVertexColCurrent = t.pVertexColBufferData
    ∧ (flush t).pVertexPosBufferData = t.pVertexPosBufferData
    ∧ (flush t).pVertexColBufferData = t.pVertexColBufferData := by
  simp [flush, USE_DYNAMIC_STREAMING, flushBufferData1]

theorem frame_facts (posBase colBase : Nat) (a : App) (events : List Event)
    (h : FrameInv posBase colBase a) :
    FrameInv posBase colBase (frame a events)
    ∧ a.pParticles.count ≤ (frame a events).pParticles.count := by
  obtain ⟨h1, h2, h3, h4, h5, h6, h7⟩ := h
  have hlt : a.renderer.bufferDataIndex + (updateParticles a.pParticles).count < SIZE_MAX1 := by
    rw [h3, updateParticles_count]
    have : SPRITE_COUNT < SIZE_MAX1 := by decide
    omega
  obtain ⟨-, -, -, k4, k5⟩ :=
    renderParticlesLoop_cursor (updateParticles a.pParticles) a.renderer
      (updateParticles a.pParticles).count hlt
  obtain ⟨f1, f2, f3, f4, f5⟩ :=
    flush_reset (renderParticles (updateParticles a.pParticles) a.renderer)
  obtain ⟨e1, e2, e3⟩ := pollEvents_facts events
    { a with
      pParticles := updateParticles a.pParticles
      renderer := flush (renderParticles (updateParticles a.pParticles) a.renderer) }
  simp only [updateParticles_count] at e2 e3
  obtain ⟨d1, d2⟩ := e3 h1 h2
  simp only [renderParticles] at f2 f3 f4 f5
  rw [k4, h6] at f2 f4
  rw [k5, h7] at f3 f5
  refine ⟨⟨d1, d2, ?_, ?_, ?_, ?_, ?_⟩, e2⟩
  · simp only [frame]; rw [e1]; exact f1
  · simp only [frame]; rw [e1]; exact f2
  · simp only [frame]; rw [e1]; exact f3
  · simp only [frame]; rw [e1]; exact f4
  · simp only [frame]; rw [e1]; exact f5

theorem mainLoop_inv (posBase colBase : Nat) (frames : List (List Event)) (a : App)
    (h : FrameInv posBase colBase a) :
    FrameInv posBase colBase (mainLoop a frames)
    ∧ a.pParticles.count ≤ (mainLoop a frames).pParticles.count := by
  induction frames generalizing a with
  | nil => exact ⟨h, le_refl _⟩
  | cons events rest ih =>
    simp only [mainLoop]
    split_ifs with hrun
    · obtain ⟨f1, f2⟩ := frame_facts posBase colBase a events h
      obtain ⟨i1, i2⟩ := ih (frame a events) f1
      exact ⟨i1, f2.trans i2⟩
    · exact ⟨h, le_refl _⟩

theorem mainLoop_append (frames more : List (List Event)) (a : App) :
    mainLoop a (frames ++ more) = mainLoop (mainLoop a frames) more := by
  induction frames generalizing a with
  | nil => rfl
  | cons events rest ih =>
    simp only [List.cons_append, mainLoop]
    split_ifs with hrun
    · exact ih (frame a events)
    · cases more with
      | nil => rfl
      | cons e es => simp [mainLoop, hrun]

theorem initApp_inv (mem : Particles) (vx vy cr cg cb : Nat → F32)
    (posBase colBase posVBO colVBO : Nat) (posCells colCells : Nat → F32) :
    FrameInv posBase colBase
      (initApp mem vx vy cr cg cb posBase colBase posVBO colVBO posCells colCells) := by
  simp [FrameInv, initApp, constructParticles]

/-- C9: in the state reached from the entry state of the frame loop (particles
constructed, `count = 0`, Empty batch) by any passes of the loop, with any
events in each pass, `count` is a multiple of 10000 and of 8 and is at most
`SPRITE_COUNT`, and it is not larger than after any further passes; and in
the next pass, after `j <= count` iterations of the loop of `renderParticles`
`bufferDataIndex` is `j <= SPRITE_COUNT`, and before the `drawRect` of
iteration `j < count` the 12 position cells and the 24 colour cells at the
write pointers lie inside the regions of `vpSize` and `vcSize` bytes, that is
`SPRITE_COUNT * 12` and `SPRITE_COUNT * 24` floats. -/
theorem mainLoop_capacity (mem : Particles) (vx vy cr cg cb : Nat → F32)
    (posBase colBase posVBO colVBO : Nat) (posCells colCells : Nat → F32)
    (frames more : List (List Event)) :
    let init := initApp mem vx vy cr cg cb posBase colBase posVBO colVBO posCells colCells
    let a := mainLoop init frames
    (10000 ∣ a.pParticles.count ∧ 8 ∣ a.pParticles.count ∧ a.pParticles.count ≤ SPRITE_COUNT)
    ∧ init.pParticles.count = 0
    ∧ a.pParticles.count ≤ (mainLoop init (frames ++ more)).pParticles.count
    ∧ (a.renderer.bufferDataIndex = 0
        ∧ a.renderer.pVertexPosBufferData = posBase ∧ a.renderer.pVertexColBufferData = colBase)
    ∧ ∀ j, j ≤ a.pParticles.count →
        (renderParticlesLoop (updateParticles a.pParticles) a.renderer j).bufferDataIndex = j
        ∧ (renderParticlesLoop (updateParticles a.pParticles) a.renderer j).bufferDataIndex
            ≤ SPRITE_COUNT
        ∧ (j < a.pParticles.count →
            posBase
              ≤ (renderParticlesLoop (updateParticles a.pParticles) a.renderer j).pVertexPosCurrent
            ∧ (renderParticlesLoop (updateParticles a.pParticles) a.renderer j).pVertexPosCurrent
                + 12 ≤ posBase + vpSize / sizeofFloat
            ∧ posBase + vpSize / sizeofFloat = posBase + SPRITE_COUNT * 12
            ∧ colBase
              ≤ (renderParticlesLoop (updateParticles a.pParticles) a.renderer j).pVertexColCurrent
            ∧ (renderParticlesLoop (updateParticles a.pParticles) a.renderer j).pVertexColCurrent
                + 24 ≤ colBase + vcSize / sizeofFloat
            ∧ colBase + vcSize / sizeofFloat = colBase + SPRITE_COUNT * 24) := by
  intro init a
  have hinv : FrameInv posBase colBase a :=
    (mainLoop_inv posBase colBase frames init
      (initApp_inv mem vx vy cr cg cb posBase colBase posVBO colVBO posCells colCells)).1
  obtain ⟨h1, h2, h3, h4, h5, h6, h7⟩ := hinv
  have hcap : SPRITE_COUNT = 1000000 := rfl
  refine ⟨⟨h1, ?_, h2⟩, rfl, ?_, ⟨h3, h6, h7⟩, fun j hj => ?_⟩
  · exact Dvd.dvd.trans (by decide) h1
  · rw [mainLoop_append]
    exact (mainLoop_inv posBase colBase more a ⟨h1, h2, h3, h4, h5, h6, h7⟩).2
  · have hlt : a.renderer.bufferDataIndex + j < SIZE_MAX1 := by
      rw [h3]
      have : SPRITE_COUNT < SIZE_MAX1 := by decide
      omega
    obtain ⟨k1, k2, k3, -, -⟩ :=
      renderParticlesLoop_cursor (updateParticles a.pParticles) a.renderer j hlt
    rw [k1, k2, k3, h3, h4, h5]
    have hvp : vpSize / sizeofFloat = SPRITE_COUNT * 12 := by decide
    have hvc : vcSize / sizeofFloat = SPRITE_COUNT * 24 := by decide
    rw [hvp, hvc]
    refine ⟨by omega, by omega, fun hjc => ⟨by omega, by omega, rfl, by omega, by omega, rfl⟩⟩

end GLSpriteRender
